import Mathlib

/-!
Verification development for the MZW-DCC mapping engine
(`src/js/mapping-engine.js`, given here as `src/unnamed/part_000`, second
revision) and the DCC XML generator (`src/js/dcc-xml-generator.js`).

The JavaScript is shallowly embedded:
* XML documents become the inductive tree `XElem` (namespace prefix kept
  separately from the local tag name, as the DOM does); DOM nodes are
  addressed by their child-index path from the document element.
* The browser's `doc.evaluate` XPath engine (an external dependency of the
  source) is modelled for exactly the XPath subset that `toXPath` emits:
  `.`/`..` steps, `descendant-or-self::*[local-name()='N']` and
  `*[local-name()='N']` steps, with an optional single attribute-equality
  predicate.  Anything outside that subset (attribute steps inside a node
  path, empty steps, other predicate forms) is modelled as an XPath
  evaluation failure, which the source catches and turns into an empty
  result.
* JavaScript values flowing into DCC-JSON become `JValue`; JS numbers are
  modelled as exact decimal scaled integers plus NaN/Infinity (`JSNum`), so
  `parseFloat`/`parseInt` keep their "NaN on unparseable input" behaviour.
* Mutation is replaced by state passing; a thrown-and-caught JS exception
  becomes `Except Unit`.
-/

namespace MZW

/-! ### Kernel-reducible string primitives

JavaScript string operations are modelled on character lists (the
corresponding `String` library functions recurse on byte positions and do
not reduce inside the kernel, which closed witnesses need). -/

/-- ECMAScript white space (ASCII part): space, tab, LF, VT, FF, CR. -/
def isJsSpace (c : Char) : Bool :=
  c = ' ' ∨ c.toNat = 9 ∨ c.toNat = 10 ∨ c.toNat = 11 ∨ c.toNat = 12 ∨ c.toNat = 13

/-- Fuel-driven worker for splitting on a non-empty separator; the fuel is
the input length, consumed at least one character per step. -/
def splitChar (sep : List Char) : Nat → List Char → List Char → List (List Char)
  | _, acc, [] => [acc.reverse]
  | 0, acc, _ :: _ => [acc.reverse]
  | fuel + 1, acc, c :: cs =>
    if sep.isPrefixOf (c :: cs) then
      acc.reverse :: splitChar sep fuel [] (cs.drop (sep.length - 1))
    else splitChar sep fuel (c :: acc) cs

/-- JS `s.split(sep)` for a non-empty separator string. -/
def strSplit (s sep : String) : List String :=
  (splitChar sep.toList s.toList.length [] s.toList).map String.mk

/-- JS `s.startsWith(p)`. -/
def strStartsWith (s p : String) : Bool :=
  p.toList.isPrefixOf s.toList

/-- JS `s.endsWith(p)`. -/
def strEndsWith (s p : String) : Bool :=
  p.toList.isSuffixOf s.toList

/-- Drop the first `n` characters. -/
def strDrop (s : String) (n : Nat) : String :=
  String.mk (s.toList.drop n)

/-- JS `s.trim()` (ASCII white space). -/
def strTrim (s : String) : String :=
  String.mk (((s.toList.dropWhile isJsSpace).reverse.dropWhile isJsSpace).reverse)

/-- JS `s.toLowerCase()` (ASCII). -/
def strLower (s : String) : String :=
  String.mk (s.toList.map Char.toLower)

/-- JS `parts.join(sep)`. -/
def strIntercalate (sep : String) : List String → String
  | [] => ""
  | [x] => x
  | x :: xs => x ++ sep ++ strIntercalate sep xs

/-- A DOM element: namespace prefix, local tag name, attributes (in document
order), directly contained text, and child elements (in document order).
Mixed-content interleaving of text with child elements is not tracked; the
engine only ever reads the concatenated, trimmed `textContent`. -/
inductive XElem : Type where
  | mk : String → String → List (String × String) → String → List XElem → XElem
deriving Repr

/-- Namespace prefix of the element (the part before `:` in its qualified
name; empty when the document uses no prefix). -/
def XElem.pfx : XElem → String
  | .mk p _ _ _ _ => p

/-- `localName`: the tag name with any namespace prefix stripped. -/
def XElem.tag : XElem → String
  | .mk _ t _ _ _ => t

/-- Attribute list, name/value pairs in document order. -/
def XElem.attrs : XElem → List (String × String)
  | .mk _ _ a _ _ => a

/-- Text directly contained in this element. -/
def XElem.txt : XElem → String
  | .mk _ _ _ s _ => s

/-- Child elements in document order. -/
def XElem.kids : XElem → List XElem
  | .mk _ _ _ _ k => k

/-- DOM `getAttribute`: value of the named attribute, `null` (= `none`) when
absent.  An attribute value may be the empty string. -/
def getAttr (e : XElem) (name : String) : Option String :=
  (e.attrs.find? (fun a => a.1 = name)).map (·.2)

mutual

/-- DOM `textContent`: concatenation of all text in the subtree. -/
def textAll : XElem → String
  | .mk _ _ _ s kids => s ++ String.join (textAllL kids)

/-- `textContent` of a list of sibling elements. -/
def textAllL : List XElem → List String
  | [] => []
  | k :: ks => textAll k :: textAllL ks

end

/-- `textContent(el)` from the source: `el.textContent?.trim() || null` —
the trimmed text, with the empty string collapsed to `null`. -/
def textContent (e : XElem) : Option String :=
  let t := strTrim (textAll e)
  if t = "" then none else some t

/-- A node of the document is addressed by its child-index path from the
document element; `[]` is the document element itself. -/
abbrev NodePath := List Nat

/-- Look up the element at a node path. -/
def getX (e : XElem) : NodePath → Option XElem
  | [] => some e
  | i :: p =>
    match e.kids[i]? with
    | some k => getX k p
    | none => none

mutual

/-- All node paths of the subtree rooted at `e`, relative to `e`, in
document (preorder) order: the element itself first, then each child's
subtree in order. -/
def subPaths : XElem → List NodePath
  | .mk _ _ _ _ kids => [] :: subPathsL 0 kids

/-- Subtree paths of the siblings `ks`, whose first element has child index
`i` in the parent. -/
def subPathsL : Nat → List XElem → List NodePath
  | _, [] => []
  | i, k :: ks => (subPaths k).map (i :: ·) ++ subPathsL (i + 1) ks

end

/-- Strict document order on node paths (preorder): an ancestor precedes its
descendants, and otherwise the path with the smaller child index at the
first differing position comes first. -/
def docLt : NodePath → NodePath → Prop
  | _, [] => False
  | [], _ :: _ => True
  | a :: as_, b :: bs => a < b ∨ (a = b ∧ docLt as_ bs)

instance : DecidableRel docLt := fun p q => by
  induction p generalizing q with
  | nil => cases q with
    | nil => exact isFalse (fun h => h)
    | cons b bs => exact isTrue trivial
  | cons a as_ ih => cases q with
    | nil => exact isFalse (fun h => h)
    | cons b bs =>
      rcases ih bs with h | h
      · by_cases hab : a < b
        · exact isTrue (Or.inl hab)
        · by_cases heq : a = b
          · exact isFalse (fun hor => hor.elim hab (fun hc => h hc.2))
          · exact isFalse (fun hor => hor.elim hab (fun hc => heq hc.1))
      · by_cases hab : a < b
        · exact isTrue (Or.inl hab)
        · by_cases heq : a = b
          · exact isTrue (Or.inr ⟨heq, h⟩)
          · exact isFalse (fun hor => hor.elim hab (fun hc => heq hc.1))

/-- XPath node-set normalization, as performed by
`XPathResult.ORDERED_NODE_ITERATOR_TYPE`: the members of the set are
returned in document order, without duplicates.  Implemented by filtering
the preorder enumeration of the whole document. -/
def normalize (root : XElem) (s : List NodePath) : List NodePath :=
  (subPaths root).filter (fun p => s.contains p)

/-- One structured step of the XPath expressions that `toXPath` emits.
`desc name pred` prints as `descendant-or-self::*[local-name()='name']pred`,
`child name pred` as `*[local-name()='name']pred`; `raw` is a step the
source passed through verbatim because it did not parse as an element
name. -/
inductive XStep : Type where
  | dot : XStep
  | dotdot : XStep
  | attrStep : String → XStep
  | desc : String → String → XStep
  | child : String → String → XStep
  | raw : String → XStep
deriving Repr, DecidableEq

/-- Render one structured step back to the exact XPath text `toXPath`
builds for it. -/
def renderStep : XStep → String
  | .dot => "."
  | .dotdot => ".."
  | .attrStep a => "@" ++ a
  | .desc n p => "descendant-or-self::*[local-name()=" ++ sq n ++ "]" ++ p
  | .child n p => "*[local-name()=" ++ sq n ++ "]" ++ p
  | .raw s => s
where
  sq (s : String) : String := "'" ++ s ++ "'"

/-- The per-segment classification done inside `toXPath`'s loop: `none`
mirrors `continue` (the empty first segment of an absolute path), otherwise
the structured form of the pushed XPath step.  The source's regex
`^([^[]+)(.*)$` fails exactly on an empty segment or one starting with `[`,
in which case the segment is pushed verbatim. -/
def stepToX (fromRoot : Bool) (i : Nat) (step : String) : Option XStep :=
  if step = "" ∧ i = 0 then none
  else if step = ".." then some .dotdot
  else if step = "." then some .dot
  else if strStartsWith step "@" then some (.attrStep (strDrop step 1))
  else if step = "" ∨ strStartsWith step "[" then some (.raw step)
  else
    let name := String.mk (step.toList.takeWhile (fun c => c ≠ '['))
    let pred := String.mk (step.toList.dropWhile (fun c => c ≠ '['))
    if i = 0 ∧ fromRoot then some (.desc name pred) else some (.child name pred)

/-- `toXPath(path, fromRoot)`, structured: split the simplified path on `/`
and classify every segment; when `fromRoot` the first segment becomes a
`descendant-or-self` search, all others direct-child steps.  `!path` and
`'.'` short-circuit to the context-node expression `.`. -/
def toXPathSteps (path : String) (fromRoot : Bool) : List XStep :=
  if path = "" ∨ path = "." then [.dot]
  else ((strSplit path "/").enum.filterMap (fun is => stepToX fromRoot is.1 is.2))

/-- The XPath string the source's `toXPath` returns (the structured steps
joined with `/`). -/
def toXPath (path : String) (fromRoot : Bool) : String :=
  strIntercalate "/" ((toXPathSteps path fromRoot).map renderStep)

/-- Parse the only predicate form the mapping profiles use,
`[@name='value']`.  Other predicate text makes the modelled XPath engine
fail (the source would hand it to the browser verbatim; profiles in this
repository only ever use the attribute-equality form). -/
def parseAttrPred (pred : String) : Option (String × String) :=
  if strStartsWith pred "[@" ∧ strEndsWith pred "']" then
    let body := let b := pred.toList.drop 2; b.take (b.length - 2)
    let n := body.takeWhile (fun c => c ≠ '=')
    let rest := body.dropWhile (fun c => c ≠ '=')
    match rest with
    | '=' :: q :: v =>
      if q = Char.ofNat 39 ∧
          n ≠ [] ∧ n.all (fun c => c ≠ '[' ∧ c ≠ ']' ∧ c ≠ Char.ofNat 39) ∧
          v.all (fun c => c ≠ Char.ofNat 39) then
        some (String.mk n, String.mk v)
      else none
    | _ => none
  else none

/-- Does the element at `p` satisfy an (already parsed) attribute-equality
predicate? -/
def predSat (root : XElem) (p : NodePath) (av : String × String) : Bool :=
  match getX root p with
  | some e => getAttr e av.1 = some av.2
  | none => false

/-- First character of an XPath NCName (ASCII approximation: letter or
underscore) — in particular not a digit, so a positional predicate such as
`[2]` is never read as a name test. -/
def isNameStart (c : Char) : Bool :=
  c.isAlpha || c = '_'

/-- Later character of an XPath NCName (ASCII approximation).  A colon is
deliberately excluded: a prefixed name test inside a predicate makes
`doc.evaluate` under the source's `null` namespace resolver throw, which
`findElements` catches into the empty result — the modelled failure. -/
def isNameChar (c : Char) : Bool :=
  c.isAlphanum || c = '_' || c = '-' || c = '.'

/-- Parse a child-element-name predicate `[Name]`: one of the verbatim
predicate forms `toXPath` preserves unchanged into the evaluated XPath.
The browser evaluates the unprefixed name test `Name` against the *null*
namespace, which is what makes verbatim predicates namespace-sensitive. -/
def parseElemPred (pred : String) : Option String :=
  if strStartsWith pred "[" ∧ strEndsWith pred "]" then
    let body := let b := pred.toList.drop 1; b.take (b.length - 1)
    match body with
    | c0 :: rest =>
        if isNameStart c0 ∧ rest.all isNameChar then some (String.mk (c0 :: rest))
        else none
    | [] => none
  else none

/-- Does the element at `p` have a child satisfying the name test `name`?
An unprefixed XPath name test matches only elements in *no* namespace
(elements with an empty `pfx` model no-namespace elements), so a prefixed
child never satisfies it. -/
def elemPredSat (root : XElem) (p : NodePath) (name : String) : Bool :=
  match getX root p with
  | some e => e.kids.any (fun k => k.pfx == "" && k.tag == name)
  | none => false

/-- Filter a candidate node list by a predicate string: the empty predicate
keeps everything, an attribute-equality predicate tests the attribute, and
a child-element-name predicate tests for such a child in the null
namespace, exactly as the browser's evaluator does under the source's
`null` resolver.  Any other verbatim predicate text — positional (`[2]`),
double-quoted or spaced variants, function calls — is outside the modelled
XPath subset and mapped to an evaluation failure (`none`); no theorem in
this development depends on those forms, and a *prefixed* name test
genuinely does fail under the `null` resolver. -/
def filterPred (root : XElem) (ps : List NodePath) (pred : String) :
    Option (List NodePath) :=
  if pred = "" then some ps
  else
    match parseAttrPred pred with
    | some av => some (ps.filter (fun p => predSat root p av))
    | none =>
      match parseElemPred pred with
      | some nm => some (ps.filter (fun p => elemPredSat root p nm))
      | none => none

/-- Does the element at `p` have the given local name?  (`local-name()`
comparison: the namespace prefix is ignored.) -/
def tagIs (root : XElem) (p : NodePath) (name : String) : Bool :=
  match getX root p with
  | some e => e.tag = name
  | none => false

/-- The child node paths of the node `n`. -/
def childList (root : XElem) (n : NodePath) : List NodePath :=
  match getX root n with
  | some e => (List.range e.kids.length).map (fun i => n ++ [i])
  | none => []

/-- The descendant-or-self node paths of `n`, in document order. -/
def descList (root : XElem) (n : NodePath) : List NodePath :=
  match getX root n with
  | some e => (subPaths e).map (fun q => n ++ q)
  | none => []

/-- Evaluate one XPath step at one context node.  `none` is an XPath
evaluation failure.  Attribute steps (which `resolveRawValue` splits off
before any element-path evaluation) and verbatim-pushed segments (an empty
segment's `//`, a leading-`[` segment) are outside the modelled subset and
mapped to failure; no theorem in this development quantifies over paths
containing them. -/
def evalStep (root : XElem) (st : XStep) (n : NodePath) :
    Option (List NodePath) :=
  match st with
  | .dot => some [n]
  | .dotdot => some (if n = [] then [] else [n.dropLast])
  | .attrStep _ => none
  | .raw _ => none
  | .desc name pred =>
    filterPred root ((descList root n).filter (fun p => tagIs root p name)) pred
  | .child name pred =>
    filterPred root ((childList root n).filter (fun p => tagIs root p name)) pred

/-- Evaluate a step sequence on a node set (union of the per-node results;
document-order normalization happens once at the end, in `findPaths`). -/
def evalCore (root : XElem) (steps : List XStep) (ns : List NodePath) :
    Option (List NodePath) :=
  match steps with
  | [] => some ns
  | st :: rest => do
    let rss ← ns.mapM (evalStep root st)
    evalCore root rest rss.flatten

/-- `findElements(doc, context, path)`: build the namespace-agnostic XPath
for `path` (descendant search for the first segment exactly when the
context is the document element) and evaluate it; an evaluation failure is
caught and turned into the empty list.  The result is in document order,
duplicate-free. -/
def findPaths (root : XElem) (ctx : NodePath) (path : String) :
    List NodePath :=
  match evalCore root (toXPathSteps path (ctx = [])) [ctx] with
  | some s => normalize root s
  | none => []

/-- `findFirst(doc, context, path)`: the first matching node in document
order, or `null`. -/
def findFirst (root : XElem) (ctx : NodePath) (path : String) :
    Option NodePath :=
  (findPaths root ctx path).head?

/-! ### JavaScript numbers and values -/

/-- A JavaScript number, restricted to what `parseFloat`/`parseInt` and the
generator's negation/`Math.abs` produce: NaN, signed infinity, or an exact
scaled decimal `m * 10^e`. -/
inductive JSNum : Type where
  | nan : JSNum
  | inf (neg : Bool) : JSNum
  | dec (m : Int) (e : Int) : JSNum
deriving Repr, DecidableEq

/-- Decimal digit run to a natural number. -/
def digitsToNat (ds : List Char) : Nat :=
  ds.foldl (fun a c => a * 10 + (c.toNat - 48)) 0

/-- `parseFloat(s)` (ECMAScript): skip leading white space, optional sign,
then the longest decimal-literal prefix `digits [. digits] [e[sign]digits]`
or `Infinity`; NaN when no digit is found.  A dangling exponent marker is
ignored (`parseFloat("1e") = 1`). -/
def jsParseFloat (s : String) : JSNum :=
  let cs := s.toList.dropWhile isJsSpace
  let sign : Bool × List Char :=
    match cs with
    | '-' :: r => (true, r)
    | '+' :: r => (false, r)
    | r => (false, r)
  let neg := sign.1
  let cs1 := sign.2
  if ("Infinity".toList).isPrefixOf cs1 then .inf neg
  else
    let d1 := cs1.takeWhile Char.isDigit
    let r1 := cs1.dropWhile Char.isDigit
    let fr : List Char × List Char :=
      match r1 with
      | '.' :: t => (t.takeWhile Char.isDigit, t.dropWhile Char.isDigit)
      | _ => ([], r1)
    let d2 := fr.1
    if d1 = [] ∧ d2 = [] then .nan
    else
      let m0 : Int := (digitsToNat (d1 ++ d2) : Int)
      let eAdj : Int :=
        match fr.2 with
        | c :: t =>
          if c = 'e' ∨ c = 'E' then
            let es : Int × List Char :=
              match t with
              | '-' :: u => (-1, u)
              | '+' :: u => (1, u)
              | u => (1, u)
            let d3 := es.2.takeWhile Char.isDigit
            if d3 = [] then 0 else es.1 * (digitsToNat d3 : Int)
          else 0
        | [] => 0
      .dec (if neg then -m0 else m0) (eAdj - (d2.length : Int))

/-- `parseInt(s, 10)`: skip leading white space, optional sign, the longest
run of decimal digits; NaN when there is none. -/
def jsParseInt (s : String) : JSNum :=
  let cs := s.toList.dropWhile isJsSpace
  let sign : Bool × List Char :=
    match cs with
    | '-' :: r => (true, r)
    | '+' :: r => (false, r)
    | r => (false, r)
  let d := sign.2.takeWhile Char.isDigit
  if d = [] then .nan
  else .dec (if sign.1 then -(digitsToNat d : Int) else (digitsToNat d : Int)) 0

/-- `dateTimeToDate`: truncate an ISO-like datetime to its leading
`YYYY-MM-DD` (the source's `/^(\d{4}-\d{2}-\d{2})/` match); anything that
does not start with that pattern passes through unchanged. -/
def dateTimeToDate (val : String) : String :=
  match val.toList with
  | a :: b :: c :: d :: '-' :: e :: f :: '-' :: g :: h :: _ =>
    if [a, b, c, d, e, f, g, h].all Char.isDigit then
      String.mk [a, b, c, d, '-', e, f, '-', g, h]
    else val
  | _ => val

/-- Replace the first occurrence of `pat` (non-empty) in a character list,
like JS `String.replace` with a plain string pattern. -/
def replaceFirstL (pat rep : List Char) : List Char → List Char
  | [] => []
  | c :: cs =>
    if pat.isPrefixOf (c :: cs) then rep ++ cs.drop (pat.length - 1)
    else c :: replaceFirstL pat rep cs

/-- JS `s.replace(pat, rep)` for a plain-string, non-empty pattern. -/
def replaceFirst (s pat rep : String) : String :=
  String.mk (replaceFirstL pat.toList rep.toList s.toList)

/-- Replace every occurrence of `pat` left to right without rescanning the
replacement, like JS `String.replace` with a global regex on a literal
pattern. -/
def replaceAllL (pat rep : List Char) : List Char → List Char
  | [] => []
  | c :: cs =>
    if pat ≠ [] ∧ pat.isPrefixOf (c :: cs) then
      rep ++ replaceAllL pat rep (cs.drop (pat.length - 1))
    else c :: replaceAllL pat rep cs
termination_by l => l.length
decreasing_by
  · simp only [List.length_cons, List.length_drop]
    omega
  · simp only [List.length_cons]
    omega

/-- JS `s.replace(new RegExp(pat-literal, 'g'), rep)`. -/
def replaceAll (s pat rep : String) : String :=
  String.mk (replaceAllL pat.toList rep.toList s.toList)

/-- A JavaScript value as it can appear in a DCC-JSON object. -/
inductive JValue : Type where
  | vStr (s : String)
  | vNum (n : JSNum)
  | vBool (b : Bool)
  | vArr (xs : List JValue)
  | vObj (fields : List (String × JValue))
deriving Repr

/-- A JavaScript object: key/value pairs in insertion order. -/
abbrev JObj := List (String × JValue)

/-- Property read `o[k]`. -/
def objGet (o : JObj) (k : String) : Option JValue :=
  (o.find? (fun a => a.1 = k)).map (·.2)

/-- Property write `o[k] = v`: overwrite in place (JS keeps the original
insertion position of an existing key), else append. -/
def objSet : JObj → String → JValue → JObj
  | [], k, v => [(k, v)]
  | (k', v') :: rest, k, v =>
    if k' = k then (k, v) :: rest else (k', v') :: objSet rest k v

/-- Read along a dotted-key path, descending only through objects. -/
def objGetPath (o : JObj) : List String → Option JValue
  | [] => none
  | [k] => objGet o k
  | k :: rest =>
    match objGet o k with
    | some (.vObj m) => objGetPath m rest
    | _ => none

/-- `setNested(obj, path, value)`: walk the dotted keys, creating fresh
`{}` objects wherever the present value is not an object, and assign at the
last key.  (The JS `typeof`-check also lets arrays pass; profiles never
nest a scalar target inside an array target, so that case keeps the
fresh-object behaviour here.) -/
def setNested (o : JObj) : List String → JValue → JObj
  | [], _ => o
  | [k], v => objSet o k v
  | k :: rest, v =>
    let cur : JObj :=
      match objGet o k with
      | some (.vObj m) => m
      | _ => []
    objSet o k (.vObj (setNested cur rest v))

/-! ### Mapping rules -/

/-- One mapping rule of a profile (the JS duck-typed rule object):
`target`, `type`, `source`, `value` (for `static`), `sources` (for
`concat`/`template`/`firstOf`), `separator`, `template`, `map` (for
`lookup`), `fields` (for `array`).  Absent JS properties are `none`. -/
inductive MRule : Type where
  | mk : (target : Option String) → (type : String) → (source : Option String) →
      (value : Option JValue) → (sources : Option (List String)) →
      (separator : Option String) → (template : Option String) →
      (map : Option (List (String × String))) →
      (fields : Option (List MRule)) → MRule

def MRule.target : MRule → Option String
  | .mk t _ _ _ _ _ _ _ _ => t

def MRule.type : MRule → String
  | .mk _ ty _ _ _ _ _ _ _ => ty

def MRule.source : MRule → Option String
  | .mk _ _ s _ _ _ _ _ _ => s

def MRule.value : MRule → Option JValue
  | .mk _ _ _ v _ _ _ _ _ => v

def MRule.sources : MRule → Option (List String)
  | .mk _ _ _ _ ss _ _ _ _ => ss

def MRule.separator : MRule → Option String
  | .mk _ _ _ _ _ sep _ _ _ => sep

def MRule.template : MRule → Option String
  | .mk _ _ _ _ _ _ tp _ _ => tp

def MRule.map : MRule → Option (List (String × String))
  | .mk _ _ _ _ _ _ _ m _ => m

def MRule.fields : MRule → Option (List MRule)
  | .mk _ _ _ _ _ _ _ _ f => f

/-- JS truthiness of a string-or-absent value. -/
def jsTruthy (s : Option String) : Bool :=
  match s with
  | some v => v ≠ ""
  | none => false

/-- `resolveRawValue(doc, context, source)`: resolve a path to its raw
string value — `.` is the context's trimmed text, a leading `@` an
attribute of the context, a `/@` split a path to an element plus one of its
attributes, anything else the first matching element's trimmed text.  The
attribute branches can produce the empty string; the text branches collapse
it to `null`. -/
def resolveRawValue (root : XElem) (ctx : NodePath) (source : Option String) :
    Option String :=
  match source with
  | none => none
  | some src =>
    if src = "" then none
    else if src = "." then (getX root ctx).bind textContent
    else if strStartsWith src "@" then
      (getX root ctx).bind (fun e => getAttr e (strDrop src 1))
    else
      match strSplit src "/@" with
      | p0 :: p1 :: _ =>
        let el := if p0 = "." then getX root ctx
          else (findFirst root ctx p0).bind (getX root)
        el.bind (fun e => getAttr e p1)
      | _ => (findFirst root ctx src).bind (fun p => (getX root p).bind textContent)

/-- `extractConcat`: resolve every entry of `sources`, keep the truthy
results, join them with `separator` (default a single space); `null` when
nothing was kept. -/
def extractConcat (root : XElem) (ctx : NodePath) (f : MRule) : Option String :=
  let parts := (f.sources.getD []).filterMap (fun src =>
    match resolveRawValue root ctx (some src) with
    | some raw => if raw = "" then none else some raw
    | none => none)
  if parts.length > 0 then some (strIntercalate (f.separator.getD " ") parts)
  else none

/-- One iteration of `extractTemplate`'s loop: substitute the `i`-th raw
value (empty when it resolved falsy) for the `{i}` placeholder, and record
whether any source was truthy so far. -/
def tmplStep (root : XElem) (ctx : NodePath) (acc : String × Bool)
    (is : Nat × String) : String × Bool :=
  let raw := (resolveRawValue root ctx (some is.2)).getD ""
  (replaceAll acc.1 ("\x7b" ++ toString is.1 ++ "\x7d") raw, acc.2 ∨ raw ≠ "")

/-- `extractTemplate`: substitute each source's raw value for its `{i}`
placeholder, sequentially by index; the trimmed result when at least one
source was truthy, else `null`. -/
def extractTemplate (root : XElem) (ctx : NodePath) (f : MRule) : Option String :=
  let res := (f.sources.getD []).enum.foldl (tmplStep root ctx)
    (f.template.getD "", false)
  if res.2 then some (strTrim res.1) else none

/-- First-match lookup in the profile's `map` object. -/
def lookupA (m : List (String × String)) (k : String) : Option String :=
  (m.find? (fun a => a.1 = k)).map (·.2)

/-- `extractLookup`: `map[raw] ?? map[raw.toLowerCase()] ?? map['*'] ??
raw`, applied to the resolved raw value; `null` only when the source
resolved to `null` (an empty-string raw value is looked up like any
other). -/
def extractLookup (root : XElem) (ctx : NodePath) (f : MRule) : Option String :=
  match resolveRawValue root ctx f.source with
  | none => none
  | some raw =>
    let m := f.map.getD []
    some ((((lookupA m raw).or (lookupA m (strLower raw))).or (lookupA m "*")).getD raw)

/-- `extractFirstOf`: the first source whose raw value is truthy. -/
def extractFirstOf (root : XElem) (ctx : NodePath) : List String → Option String
  | [] => none
  | src :: rest =>
    match resolveRawValue root ctx (some src) with
    | some raw => if raw ≠ "" then some raw else extractFirstOf root ctx rest
    | none => extractFirstOf root ctx rest

/-- `extractAsFoundAsLeft`: `isAsFound="true"` → `"asFound"`, else
`isAsLeft="true"` → `"asLeft"`, else `null`. -/
def extractAsFoundAsLeft (e : XElem) : Option String :=
  if getAttr e "isAsFound" = some "true" then some "asFound"
  else if getAttr e "isAsLeft" = some "true" then some "asLeft"
  else none

/-- `extractConformity`: the context element when `source` is falsy or
`"."`, else the first element matching `source`; its `isConform` attribute
decides `"pass"`/`"fail"`, anything else is `null`. -/
def extractConformity (root : XElem) (ctx : NodePath) (source : Option String) :
    Option String :=
  let el := if ¬ jsTruthy source ∨ source = some "." then getX root ctx
    else (source.bind (findFirst root ctx)).bind (getX root)
  match el with
  | none => none
  | some e =>
    match getAttr e "isConform" with
    | some v =>
      if v = "true" then some "pass"
      else if v = "false" then some "fail"
      else none
    | none => none

/-- Scalar type conversion applied to a non-empty raw string. -/
def convertType (ty raw : String) : JValue :=
  if ty = "number" then .vNum (jsParseFloat raw)
  else if ty = "integer" then .vNum (jsParseInt raw)
  else if ty = "boolean" then .vBool (raw = "true" ∨ raw = "1")
  else if ty = "date" then .vStr (dateTimeToDate raw)
  else .vStr raw

/-- `extractValue(doc, context, field)`: dispatch on the rule type; for the
plain scalar kinds, a falsy source or a `null`/empty raw value yields
`null`, otherwise the type-converted value. -/
def extractValue (root : XElem) (ctx : NodePath) (f : MRule) : Option JValue :=
  if f.type = "static" then f.value
  else if f.type = "concat" then (extractConcat root ctx f).map .vStr
  else if f.type = "template" then (extractTemplate root ctx f).map .vStr
  else if f.type = "lookup" then (extractLookup root ctx f).map .vStr
  else if f.type = "firstOf" then
    (extractFirstOf root ctx (f.sources.getD [])).map .vStr
  else if f.type = "asFoundAsLeft" then
    ((getX root ctx).bind extractAsFoundAsLeft).map .vStr
  else if f.type = "conformity" then (extractConformity root ctx f.source).map .vStr
  else
    match f.source with
    | none => none
    | some src =>
      if src = "" then none
      else
        match resolveRawValue root ctx (some src) with
        | none => none
        | some raw => if raw = "" then none else some (convertType f.type raw)

/-- The object key a scalar field writes: JS `item[field.target]` coerces
an absent target to the string key `"undefined"`. -/
def jsKey (t : Option String) : String :=
  match t with
  | some s => s
  | none => "undefined"

/-- Reading `field.target.replace(...)` in JS throws a `TypeError` when
`target` is absent; modelled as an `Except`. -/
def jsTarget : Option String → Except Unit String
  | some t => .ok t
  | none => .error ()

/-- The object key a field writes when it writes at all: the de-bracketed
target for an `array` field, the target key for a scalar field. -/
def fieldKey (f : MRule) : String :=
  if f.type = "array" then replaceFirst (jsKey f.target) "[]" "" else jsKey f.target

/-- The per-container loop of an `array` field (`for (const el of
elements) arr.push(processArrayFields(doc, el, field.fields))`): apply the
per-container evaluator to each matched container in order, propagating a
thrown error. -/
def arrLoop (g : NodePath → Except Unit JObj) :
    List NodePath → Except Unit (List JValue)
  | [] => .ok []
  | p :: rest =>
    match g p with
    | .error e => .error e
    | .ok item =>
      match arrLoop g rest with
      | .error e => .error e
      | .ok others => .ok (.vObj item :: others)

/-- `processArrayFields(doc, parentEl, fields)` as a fold over the fields:
an `array` field recurses over its matched containers, a scalar field
writes its extracted value when non-null.  `Except.error ()` models the
`TypeError` thrown by `field.target.replace` when an `array` field has no
target. -/
def processFields (root : XElem) : List MRule → NodePath → JObj → Except Unit JObj
  | [], _, item => .ok item
  | .mk tg ty src v ss sep tp mp (some fl) :: fs, parent, item =>
    if ty = "array" then
      (arrLoop (fun p => processFields root fl p [])
          (findPaths root parent (src.getD ""))).bind (fun arr =>
        (jsTarget tg).bind (fun t =>
          processFields root fs parent
            (objSet item (replaceFirst t "[]" "") (.vArr arr))))
    else
      match extractValue root parent (.mk tg ty src v ss sep tp mp (some fl)) with
      | some w => processFields root fs parent (objSet item (jsKey tg) w)
      | none => processFields root fs parent item
  | .mk tg ty src v ss sep tp mp none :: fs, parent, item =>
    if ty = "array" then
      (arrLoop (fun p => processFields root [] p [])
          (findPaths root parent (src.getD ""))).bind (fun arr =>
        (jsTarget tg).bind (fun t =>
          processFields root fs parent
            (objSet item (replaceFirst t "[]" "") (.vArr arr))))
    else
      match extractValue root parent (.mk tg ty src v ss sep tp mp none) with
      | some w => processFields root fs parent (objSet item (jsKey tg) w)
      | none => processFields root fs parent item
termination_by fs _ _ => sizeOf fs
decreasing_by
  all_goals simp
  all_goals omega

/-- The container loop applied to `fields` (the body of the source's
`for (const el of elements)` in `applyRule` and `processArrayFields`). -/
def processArr (root : XElem) (ps : List NodePath) (fields : List MRule) :
    Except Unit (List JValue) :=
  arrLoop (fun p => processFields root fields p []) ps

/-- `applyRule(doc, context, rule, target)` for a top-level rule (context is
the document element): an `array` rule assembles one object per matched
container and writes the array at the de-bracketed dotted target; any other
rule writes its extracted value at the dotted target only when non-null.
`Except.error ()` models a thrown `TypeError` (missing `target`). -/
def applyRule (root : XElem) (rule : MRule) (result : JObj) : Except Unit JObj :=
  if rule.type = "array" then
    match processArr root (findPaths root [] (rule.source.getD ""))
        (rule.fields.getD []) with
    | .error e => .error e
    | .ok arr =>
      match rule.target with
      | none => .error ()
      | some t =>
        .ok (setNested result (strSplit (replaceFirst t "[]" "") ".") (.vArr arr))
  else
    match extractValue root [] rule with
    | none => .ok result
    | some v =>
      match rule.target with
      | none => .error ()
      | some t => .ok (setNested result (strSplit t ".") v)

/-- `convertXmlToDccJson(xmlString, profile)`: a parse failure (modelled as
`none`) throws; otherwise every mapping rule is applied in order, each
inside its own try/catch, so a failing rule leaves the accumulated result
untouched and the loop continues. -/
def convertXmlToDccJson (xml : Option XElem) (mappings : List MRule) :
    Except String JObj :=
  match xml with
  | none => .error "XML parse error"
  | some root =>
    .ok (mappings.foldl (fun res rule =>
      match applyRule root rule res with
      | .ok r => r
      | .error _ => res) ([] : JObj))

/-! ### Spec-side path resolution (for the refinement claim about `toXPath`) -/

/-- One parsed path segment as the spec describes it: a local element name
plus an optional attribute-equality predicate. -/
abbrev Seg := String × Option (String × String)

/-- The element-name part of a raw segment (before any `[`). -/
def segName (s : String) : String :=
  String.mk (s.toList.takeWhile (fun c => c ≠ '['))

/-- The raw predicate part of a segment (from the first `[` on). -/
def segPred (s : String) : String :=
  String.mk (s.toList.dropWhile (fun c => c ≠ '['))

/-- Does the element at `p` match a spec segment: same local name, and the
predicate (when present) satisfied? -/
def segMatches (root : XElem) (p : NodePath) (s : Seg) : Bool :=
  tagIs root p s.1 && (match s.2 with
    | none => true
    | some av => predSat root p av)

/-- Parse one plain element segment (`Name` or `Name[@attr='value']`);
`none` for the structural segments (`.`/`..`/`@attr`/empty) that the spec
treats separately. -/
def parseSeg (s : String) : Option Seg :=
  if s = "" ∨ s = "." ∨ s = ".." ∨ strStartsWith s "@" ∨ strStartsWith s "[" then none
  else
    let name := String.mk (s.toList.takeWhile (fun c => c ≠ '['))
    let pred := String.mk (s.toList.dropWhile (fun c => c ≠ '['))
    if pred = "" then some (name, none)
    else (parseAttrPred pred).map (fun av => (name, some av))

/-- Parse a slash-separated path consisting solely of plain element
segments. -/
def parsePlainPath (path : String) : Option (List Seg) :=
  if path = "" ∨ path = "." then none
  else (strSplit path "/").mapM parseSeg

/-- Path resolution as worded by the spec: the first segment of a path
whose evaluation starts at the document root (context = document element)
is resolved as descendant-or-self (anywhere-in-document search by local
name), every subsequent segment — and the first segment relative to a
non-root context — as a direct child by local name; the result is the
matched node set in document order. -/
def specResolve (root : XElem) (ctx : NodePath) (segs : List Seg) :
    List NodePath :=
  match segs with
  | [] => [ctx]
  | s0 :: rest =>
    let start :=
      if ctx = [] then (descList root ctx).filter (fun p => segMatches root p s0)
      else (childList root ctx).filter (fun p => segMatches root p s0)
    normalize root (rest.foldl (fun ns s =>
      (ns.map (fun n => (childList root n).filter
        (fun p => segMatches root p s))).flatten) start)

mutual

/-- Erase every element's namespace prefix (two source documents "differing
only in namespace prefixes" are documents with the same erasure). -/
def erasePfx : XElem → XElem
  | .mk _ t a s k => .mk "" t a s (erasePfxL k)

/-- Prefix erasure on a child list. -/
def erasePfxL : List XElem → List XElem
  | [] => []
  | k :: ks => erasePfx k :: erasePfxL ks

end

/-- Every `array`-typed rule in the list, at any nesting depth, carries a
`target` (the only way a rule evaluation can throw in the embedding). -/
def fieldsOk : List MRule → Bool
  | [] => true
  | .mk tg ty _ _ _ _ _ _ (some fl) :: fs =>
    (if ty = "array" then tg.isSome && fieldsOk fl else true) && fieldsOk fs
  | .mk tg ty _ _ _ _ _ _ none :: fs =>
    (if ty = "array" then tg.isSome else true) && fieldsOk fs
termination_by fs => sizeOf fs
decreasing_by
  all_goals simp
  all_goals omega

/-- The source paths whose resolution feeds a rule's value: the `sources`
list for the multi-source kinds, the single `source` otherwise. -/
def srcPaths (f : MRule) : List (Option String) :=
  if f.type = "concat" ∨ f.type = "template" ∨ f.type = "firstOf" then
    (f.sources.getD []).map some
  else [f.source]

/-- "The rule's resolved source value is absent or the empty string." -/
def noRaw (root : XElem) (ctx : NodePath) (s : Option String) : Prop :=
  resolveRawValue root ctx s = none ∨ resolveRawValue root ctx s = some ""

/-- The element a `conformity` rule reads its attribute from, as the claim
words it: the context element itself when `source` is absent (or empty) or
`"."`, otherwise the first element resolved from `source`. -/
def conformityCtxEl (root : XElem) (ctx : NodePath) (source : Option String) :
    Option XElem :=
  if source = none ∨ source = some "" ∨ source = some "." then getX root ctx
  else source.bind (fun s => (findFirst root ctx s).bind (getX root))

/-! ### Concrete fixtures used by counterexamples and witnesses -/

/-- `<X a=""/>`: the attribute `a` is present but empty. -/
def c1doc : XElem := .mk "" "X" [("a", "")] "" []

/-- A `lookup` rule reading `@a` with an empty map. -/
def c1rule : MRule :=
  .mk (some "k") "lookup" (some "@a") none none none none (some []) none

/-- A `string` rule whose source path matches nothing. -/
def c1wrule : MRule :=
  .mk (some "k") "string" (some "Missing") none none none none none none

/-- `<X a="abc"/>`: a non-numeric attribute value. -/
def c4doc : XElem := .mk "" "X" [("a", "abc")] "" []

/-- A `number` rule reading `@a`. -/
def c4rule : MRule :=
  .mk (some "x") "number" (some "@a") none none none none none none

/-- `<X a="false"/>`: an explicit `"false"` raw value. -/
def c5doc : XElem := .mk "" "X" [("a", "false")] "" []

/-- A `boolean` rule reading `@a`. -/
def c5rule : MRule :=
  .mk (some "k") "boolean" (some "@a") none none none none none none

/-- A lookup map with an exact key, its lowercase twin, and a wildcard. -/
def c6map : List (String × String) := [("ExactKey", "E"), ("exactkey", "L"), ("*", "W")]

/-- A `lookup` rule on `@a` with `c6map`. -/
def c6rule : MRule :=
  .mk (some "k") "lookup" (some "@a") none none none none (some c6map) none

/-- A `lookup` rule on `@a` whose map has no matching key and no wildcard. -/
def c6rule2 : MRule :=
  .mk (some "k") "lookup" (some "@a") none none none none (some [("k1", "v1")]) none

/-- A document whose root carries attribute `a` with the given value. -/
def attrDoc (v : String) : XElem := .mk "" "X" [("a", v)] "" []

/-- `<Point isConform="false"/>`. -/
def c8docF : XElem := .mk "" "Point" [("isConform", "false")] "" []

/-- `<Point/>`: no `isConform` attribute. -/
def c8docA : XElem := .mk "" "Point" [] "" []

/-- A `conformity` rule without a `source`. -/
def c8rule : MRule :=
  .mk (some "k") "conformity" none none none none none none none

/-- `<Cal><A>one</A><B>two</B></Cal>`, used by the failure-isolation
witness. -/
def c2doc : XElem :=
  .mk "" "Cal" [] "" [.mk "" "A" [] "one" [], .mk "" "B" [] "two" []]

/-- A rule whose evaluation throws: it produces a value (`static`) but has
no `target`, so the JS `rule.target.split('.')` raises a `TypeError`. -/
def c2bad : MRule :=
  .mk none "static" none (some (JValue.vStr "v")) none none none none none

/-- `string` rule `A → a`. -/
def c2good1 : MRule :=
  .mk (some "a") "string" (some "A") none none none none none none

/-- `string` rule `B → b`. -/
def c2good2 : MRule :=
  .mk (some "b") "string" (some "B") none none none none none none

/-- Nested `number` field `SetPoint → setPoint` of the array witness. -/
def c7sub : MRule :=
  .mk (some "setPoint") "number" (some "SetPoint") none none none none none none

/-- Three `<TestPoint>` siblings with set points 10, 20, 30 (spec
scenario 3). -/
def c7doc : XElem :=
  .mk "" "Cal" [] ""
    [.mk "" "TestPoint" [] "" [.mk "" "SetPoint" [] "10" []],
     .mk "" "TestPoint" [] "" [.mk "" "SetPoint" [] "20" []],
     .mk "" "TestPoint" [] "" [.mk "" "SetPoint" [] "30" []]]

/-- `array` rule over the `<TestPoint>` containers. -/
def c7rule : MRule :=
  .mk (some "results[]") "array" (some "TestPoint") none none none none none
    (some [c7sub])

/-- The same document as `c7doc` but with every element carrying the
namespace prefix `ns` — the two differ only in namespace prefixes. -/
def c3docP : XElem :=
  .mk "ns" "Cal" [] ""
    [.mk "ns" "TestPoint" [] "" [.mk "ns" "SetPoint" [] "10" []],
     .mk "ns" "TestPoint" [] "" [.mk "ns" "SetPoint" [] "20" []],
     .mk "ns" "TestPoint" [] "" [.mk "ns" "SetPoint" [] "30" []]]

/-- `array` rule whose source matches no container. -/
def c10rule : MRule :=
  .mk (some "empty[]") "array" (some "Nothing") none none none none none none

/-- `array` rule whose nested `array` field lacks a target, so every
application of the rule throws. -/
def c10bad : MRule :=
  .mk (some "results[]") "array" (some "TestPoint") none none none none none
    (some [.mk none "array" (some "Q") none none none none none none])

/-- Nested `array` field that does carry a target; its source matches no
container. -/
def c10nest : MRule :=
  .mk (some "sub[]") "array" (some "Q") none none none none none none

/-- Document `<Cal><Item><Sub/></Item></Cal>`, every element in no
namespace. -/
def c3predDoc : XElem :=
  .mk "" "Cal" [] "" [.mk "" "Item" [] "" [.mk "" "Sub" [] "" []]]

/-- The same document with every element carrying the prefix `ns` — the
two differ only in namespace prefixes. -/
def c3predDocP : XElem :=
  .mk "ns" "Cal" [] "" [.mk "ns" "Item" [] "" [.mk "ns" "Sub" [] "" []]]

/-! ### DCC XML generator (`src/js/dcc-xml-generator.js`)

The generator takes a structured DCC-JSON object and pushes one output
line per `lines.push(...)` in the source.  We embed the input as typed
structures whose fields are exactly the properties the generator reads
(every field optional, matching absent JSON properties), and each pushed
line as a constructor of `XLine` recording the indent level, tag name,
attributes and text of that line; `renderLine` recovers the pushed string
verbatim.  Fields the source guards with a `typeof === 'number'` check
(`allowedDeviation`/`mpe`) are typed number-or-string; the remaining
`si:value` interpolations carry numbers. -/

/-- Input sub-object for `item.mediumConditions` entries (source reads
`c.name`, `c.value`). -/
structure MedCond where
  name : Option String := none
  value : Option String := none

/-- Input sub-object for calibration-factor entries (source reads
`c.value`). -/
structure CalFactor where
  value : Option String := none

/-- Input object for `data.items` entries (all properties the generator
reads at source lines 131–251). -/
structure DccItem where
  name : Option String := none
  manufacturer : Option String := none
  model : Option String := none
  serialNumber : Option String := none
  inventoryNumber : Option String := none
  equipmentNumber : Option String := none
  testEquipmentNumber : Option String := none
  tagNumber : Option String := none
  description : Option String := none
  parameter : Option String := none
  measuringRange : Option String := none
  signalOutput : Option String := none
  calibrationRange : Option String := none
  medium : Option String := none
  mpe : Option String := none
  mediumConditions : Option (List MedCond) := none
  calibrationFactorsAsFound : Option (List CalFactor) := none
  calibrationFactorsAsLeft : Option (List CalFactor) := none

/-- Input object for `data.accessories` entries (source lines 255–287). -/
structure Accessory where
  description : Option String := none
  type : Option String := none
  serialNumber : Option String := none

/-- Input object for `data.coreData` (source lines 36–124). -/
structure CoreData where
  languageCode : Option String := none
  countryCodeISO3166_1 : Option String := none
  uniqueIdentifier : Option String := none
  calibrationMark : Option String := none
  orderNumber : Option String := none
  previousReport : Option String := none
  beginPerformanceDate : Option String := none
  endPerformanceDate : Option String := none
  performanceLocation : Option String := none

/-- Input object for `data.calibrationLaboratory` (source lines 292–322). -/
structure Lab where
  calibrationLaboratoryCode : Option String := none
  name : Option String := none
  eMail : Option String := none
  phone : Option String := none
  fax : Option String := none
  street : Option String := none
  postCode : Option String := none
  city : Option String := none
  country : Option String := none

/-- Input object for `data.respPersons` entries (source lines 337–351). -/
structure Person where
  name : Option String := none
  role : Option String := none
  isMainSigner : Option Bool := none

/-- Input object for `data.customer` (source lines 356–379). -/
structure Customer where
  name : Option String := none
  eMail : Option String := none
  phone : Option String := none
  street : Option String := none
  postCode : Option String := none
  city : Option String := none
  country : Option String := none
  contactPerson : Option String := none

/-- Input object for `data.statements` entries (source lines 385–407). -/
structure Stmt where
  name : Option String := none
  description : Option String := none
  decisionRule : Option String := none
  conformityProbability : Option String := none
  norm : Option String := none
  conformity : Option String := none

/-- Input object for `data.measuringEquipments` entries (source lines
434–506). -/
structure Equip where
  name : Option String := none
  manufacturer : Option String := none
  model : Option String := none
  serialNumber : Option String := none
  certificateNumber : Option String := none
  equipmentNumber : Option String := none
  calibrationMark : Option String := none
  traceability : Option String := none
  calibrationDate : Option String := none
  nextCalibrationDate : Option String := none

/-- Input object for `mr.usedMethods` entries (source lines 565–576). -/
structure UsedMethod where
  name : Option String := none
  description : Option String := none

/-- Input object for `mr.influenceConditions` entries (source lines
584–631). -/
structure InflCond where
  name : Option String := none
  unit : Option String := none
  min : Option JSNum := none
  max : Option JSNum := none
  value : Option JSNum := none
  uncertainty : Option JSNum := none

/-- A JS value the source checks with `typeof tolerance === 'number'`:
either a number or a free string. -/
inductive NumOrStr : Type where
  | num (v : JSNum) : NumOrStr
  | str (s : String) : NumOrStr

/-- Input object for `mr.results` entries (source lines 657–775). -/
structure RPoint where
  name : Option String := none
  setPoint : Option JSNum := none
  setPointUnit : Option String := none
  nominalValue : Option JSNum := none
  referenceValue : Option JSNum := none
  nominalUnit : Option String := none
  referenceUnit : Option String := none
  measuredValue : Option JSNum := none
  measuredUnit : Option String := none
  uncertainty : Option JSNum := none
  coverageFactor : Option JSNum := none
  coverageProbability : Option JSNum := none
  deviation : Option JSNum := none
  deviationUnit : Option String := none
  allowedDeviation : Option NumOrStr := none
  allowedDeviationUnit : Option String := none
  mpe : Option NumOrStr := none
  mpeUnit : Option String := none
  conformity : Option String := none

/-- Input object for `data.measurementResults` entries (source lines
533–783). -/
structure MeasResult where
  name : Option String := none
  description : Option String := none
  calibrationProcedure : Option String := none
  referenceStandard : Option String := none
  decisionRule : Option String := none
  method : Option String := none
  usedMethods : Option (List UsedMethod) := none
  influenceConditions : Option (List InflCond) := none
  results : Option (List RPoint) := none

/-- Input object for `data.calibrationLocation` (source line 800). -/
structure CalLoc where
  name : Option String := none
  street : Option String := none
  postCode : Option String := none
  city : Option String := none
  country : Option String := none

/-- Input object for `data.calibrationSOPs` entries (source line 804). -/
structure Sop where
  sopNumber : Option String := none
  description : Option String := none

/-- The full DCC-JSON input object: exactly the top-level properties
`generateDccXml`/`validateData` read. -/
structure DccData where
  coreData : Option CoreData := none
  items : Option (List DccItem) := none
  accessories : Option (List Accessory) := none
  calibrationLaboratory : Option Lab := none
  respPersons : Option (List Person) := none
  customer : Option Customer := none
  statements : Option (List Stmt) := none
  remarks : Option String := none
  measuringEquipments : Option (List Equip) := none
  measurementResults : Option (List MeasResult) := none
  calibrationSOPs : Option (List Sop) := none
  calibrationLocation : Option CalLoc := none

/-- The empty DCC-JSON object `{}`. -/
def emptyDcc : DccData := {}

/-- JS `a || dflt` for a string-or-absent value: the default replaces both
an absent value and the empty string. -/
def gOr (o : Option String) (dflt : String) : String :=
  match o with
  | some s => if s = "" then dflt else s
  | none => dflt

/-- JS `a || b` where both sides may be absent: the result may itself still
be absent (used for `endDate = endPerformanceDate || beginDate`). -/
def gOrO (a b : Option String) : Option String :=
  if jsTruthy a then a else b

/-- JS template interpolation of a possibly-undefined string: `undefined`
prints as the literal string `undefined`. -/
def gU (o : Option String) : String :=
  match o with
  | some s => s
  | none => "undefined"

/-- One pushed output line of the generator, keeping the structure of the
template string: indent level, tag name, attribute list and text content.
`decl` is the XML declaration; `rootOpen`/`rootAttr`/`rootAttrEnd` are the
multi-line root-element opening (source lines 42–47); `o`/`c` are plain
opening/closing tag lines, `sc` a self-closing tag, `t` an
open-text-close line and `ta`/`oa` their variants with attributes. -/
inductive XLine : Type where
  | decl : XLine
  | rootOpen (n : String) : XLine
  | rootAttr (a v : String) : XLine
  | rootAttrEnd (a v : String) : XLine
  | o (lvl : Nat) (n : String) : XLine
  | oa (lvl : Nat) (n : String) (attrs : List (String × String)) : XLine
  | c (lvl : Nat) (n : String) : XLine
  | sc (lvl : Nat) (n : String) : XLine
  | t (lvl : Nat) (n txt : String) : XLine
  | ta (lvl : Nat) (n : String) (attrs : List (String × String)) (txt : String) : XLine

/-- Source line 24: `indent(level)` is `'  '.repeat(level)`. -/
def indentStr (lvl : Nat) : String :=
  String.mk (List.replicate (2 * lvl) ' ')

/-- Attribute rendering `n="v"` with a leading space, as interpolated into
the template strings. -/
def renderAttrs (attrs : List (String × String)) : String :=
  String.join (attrs.map (fun p => " " ++ p.1 ++ "=\"" ++ p.2 ++ "\""))

/-- Render one line back to the exact string pushed by the source. -/
def renderLine : XLine → String
  | .decl => "<?xml version=\"1.0\" encoding=\"UTF-8\"?>"
  | .rootOpen n => "<" ++ n
  | .rootAttr a v => "  " ++ a ++ "=\"" ++ v ++ "\""
  | .rootAttrEnd a v => "  " ++ a ++ "=\"" ++ v ++ "\">"
  | .o lvl n => indentStr lvl ++ "<" ++ n ++ ">"
  | .oa lvl n attrs => indentStr lvl ++ "<" ++ n ++ renderAttrs attrs ++ ">"
  | .c lvl n => indentStr lvl ++ "</" ++ n ++ ">"
  | .sc lvl n => indentStr lvl ++ "<" ++ n ++ "/>"
  | .t lvl n txt => indentStr lvl ++ "<" ++ n ++ ">" ++ txt ++ "</" ++ n ++ ">"
  | .ta lvl n attrs txt =>
      indentStr lvl ++ "<" ++ n ++ renderAttrs attrs ++ ">" ++ txt ++ "</" ++ n ++ ">"

/-- Per-character expansion of the generator's `esc` (source lines 26–33).
The source applies four sequential global replaces (`&`, `<`, `>`, `"`, in
that order); since no replacement string contains a character replaced by a
later pass, the composition equals this single left-to-right character
map. -/
def escChar (c : Char) : List Char :=
  if c = '&' then "&amp;".toList
  else if c = '<' then "&lt;".toList
  else if c = '>' then "&gt;".toList
  else if c = Char.ofNat 34 then "&quot;".toList
  else [c]

/-- Character-list form of `esc`. -/
def escL : List Char → List Char
  | [] => []
  | c :: cs => escChar c ++ escL cs

/-- XML-escape a (defined) string. -/
def esc (s : String) : String :=
  String.mk (escL s.toList)

/-- The source's `esc` on a possibly-undefined string: `esc(null)` and
`esc(undefined)` return the empty string (source line 27). -/
def escO : Option String → String
  | none => ""
  | some s => esc s

/-- A character that can appear in an attribute value or text content
without disturbing the tag structure: neither `<` nor a double quote. -/
def okC (c : Char) : Bool :=
  (c != '<') && (c != Char.ofNat 34)

/-- Text content is tag-safe when it contains no `<`. -/
def textOk (s : String) : Bool :=
  s.toList.all (fun c => c != '<')

/-- An attribute value is tag-safe when it contains neither `<` nor a
double quote. -/
def attrOk (s : String) : Bool :=
  s.toList.all okC

/-- All attribute values of a list are tag-safe. -/
def attrsOk (attrs : List (String × String)) : Bool :=
  attrs.all (fun p => attrOk p.2)

/-- Well-formedness checker, one line at a time: maintains the stack of
open tag names; opening lines push, closing lines pop a matching name,
text and attribute values must be tag-safe.  Returns `none` on a mismatch
or unsafe character. -/
def chkLine : XLine → List String → Option (List String)
  | .decl, st => some st
  | .rootOpen n, st => some (n :: st)
  | .rootAttr _ v, st => if attrOk v then some st else none
  | .rootAttrEnd _ v, st => if attrOk v then some st else none
  | .o _ n, st => some (n :: st)
  | .oa _ n attrs, st => if attrsOk attrs then some (n :: st) else none
  | .c _ n, st =>
      match st with
      | [] => none
      | m :: st2 => if m = n then some st2 else none
  | .sc _ _, st => some st
  | .t _ _ txt, st => if textOk txt then some st else none
  | .ta _ _ attrs txt, st => if attrsOk attrs && textOk txt then some st else none

/-- Run the checker over a list of lines. -/
def chk : List XLine → List String → Option (List String)
  | [], st => some st
  | l :: ls, st =>
      match chkLine l st with
      | some st2 => chk ls st2
      | none => none

/-- Decimal digit character. -/
def digitChar : Nat → Char
  | 0 => '0'
  | 1 => '1'
  | 2 => '2'
  | 3 => '3'
  | 4 => '4'
  | 5 => '5'
  | 6 => '6'
  | 7 => '7'
  | 8 => '8'
  | _ => '9'

/-- Decimal digits of `n`, fuel-driven (the fuel `n+1` always suffices). -/
def natChars : Nat → Nat → List Char
  | 0, _ => []
  | fuel + 1, n => if n < 10 then [digitChar n] else natChars fuel (n / 10) ++ [digitChar (n % 10)]

/-- Decimal rendering of a natural number. -/
def natStr (n : Nat) : String :=
  String.mk (natChars (n + 1) n)

/-- Decimal rendering of an integer. -/
def intStr (i : Int) : String :=
  if i < 0 then "-" ++ natStr i.natAbs else natStr i.natAbs

/-- JS number-to-string as used by `${...}` interpolation of `si:value`
contents.  For finite values we render the scaled-decimal representation
`m`/`m e exp`; this keeps the character set of the real JS rendering
(digits, sign, `.`/`e`, or the words `NaN`/`Infinity`), which is all the
surrounding XML structure depends on. -/
def jsNumToStr : JSNum → String
  | .nan => "NaN"
  | .inf true => "-Infinity"
  | .inf false => "Infinity"
  | .dec m e => intStr m ++ (if e = 0 then "" else "e" ++ intStr e)

/-- JS `Math.abs` on our number model. -/
def jsAbs : JSNum → JSNum
  | .nan => .nan
  | .inf _ => .inf false
  | .dec m e => .dec (Int.natAbs m : Int) e

/-- JS unary minus on our number model. -/
def jsNegNum : JSNum → JSNum
  | .nan => .nan
  | .inf b => .inf (!b)
  | .dec m e => .dec (-m) e

/-- Lower acceptance limit text: source line 745,
`typeof tolerance === 'number' ? -Math.abs(tolerance) : tolerance`. -/
def tolLower : NumOrStr → String
  | .num v => jsNumToStr (jsNegNum (jsAbs v))
  | .str s => s

/-- Upper acceptance limit text: source line 755. -/
def tolUpper : NumOrStr → String
  | .num v => jsNumToStr (jsAbs v)
  | .str s => s

/-- Balanced element block: an opening tag line, the enclosed lines, and
the matching closing tag line — the shape of every
`lines.push('<x>') ... lines.push('</x>')` pair in the source (opening and
closing indents always agree there). -/
def blk (lvl : Nat) (n : String) (mid : List XLine) : List XLine :=
  XLine.o lvl n :: (mid ++ [XLine.c lvl n])

/-- Balanced element block with attributes on the opening tag. -/
def blkA (lvl : Nat) (n : String) (attrs : List (String × String)) (mid : List XLine) :
    List XLine :=
  XLine.oa lvl n attrs :: (mid ++ [XLine.c lvl n])

/-- Conditional lines for a JS `if (x != null) { ... }` over an optional
value: the lines when present, nothing when absent. -/
def optLines {α : Type} (o : Option α) (f : α → List XLine) : List XLine :=
  match o with
  | some v => f v
  | none => []

/-- Conditional description part: JS `if (x) parts.push(pre + x)` (absent
and empty strings are both falsy). -/
def pPart (o : Option String) (pre : String) : List String :=
  match o with
  | some s => if s = "" then [] else [pre ++ s]
  | none => []

/-- Source lines 41–47: XML declaration and root-element opening with its
namespace attributes. -/
def headLines : List XLine :=
  [XLine.decl,
   XLine.rootOpen "dcc:digitalCalibrationCertificate",
   XLine.rootAttr "xmlns:dcc" "https://ptb.de/dcc",
   XLine.rootAttr "xmlns:si" "https://ptb.de/si",
   XLine.rootAttr "xmlns:xsi" "http://www.w3.org/2001/XMLSchema-instance",
   XLine.rootAttr "xsi:schemaLocation" "https://ptb.de/dcc https://ptb.de/dcc/v3.3.0/dcc.xsd",
   XLine.rootAttrEnd "schemaVersion" "3.3.0"]

/-- Source lines 55–63: the constant `dcc:dccSoftware` block. -/
def dccSoftwareLines : List XLine :=
  blk 2 "dcc:dccSoftware"
    (blk 3 "dcc:software"
       (blk 4 "dcc:name"
          [XLine.ta 5 "dcc:content" [("lang", "en")] "PDF-to-DCC Converter"] ++
        [XLine.t 4 "dcc:release" "1.0.0"] ++
        [XLine.t 4 "dcc:type" "application"]))

/-- Source lines 85–93 and 97–106: the order-number identification block
(identical in both branches). -/
def orderIdent (cd : Option CoreData) : List XLine :=
  blk 4 "dcc:identification"
    ([XLine.t 5 "dcc:issuer" "customer"] ++
     [XLine.t 5 "dcc:value" (escO (cd.bind (fun c => c.orderNumber)))] ++
     blk 5 "dcc:name"
       ([XLine.ta 6 "dcc:content" [("lang", "de")] "Auftragsnummer"] ++
        [XLine.ta 6 "dcc:content" [("lang", "en")] "Order number"]))

/-- Source lines 66–126: the `dcc:coreData` block. -/
def coreDataLines (cd : Option CoreData) (lang country : String) : List XLine :=
  let uniqueId := cd.bind (fun c => c.uniqueIdentifier)
  let beginDate := cd.bind (fun c => c.beginPerformanceDate)
  let endDate := gOrO (cd.bind (fun c => c.endPerformanceDate)) beginDate
  blk 2 "dcc:coreData"
    ([XLine.t 3 "dcc:countryCodeISO3166_1" (esc country)] ++
     [XLine.t 3 "dcc:usedLangCodeISO639_1" (esc lang)] ++
     [XLine.t 3 "dcc:mandatoryLangCodeISO639_1" (esc lang)] ++
     [XLine.t 3 "dcc:uniqueIdentifier" (esc (gOr uniqueId "UNKNOWN"))] ++
     (if jsTruthy (cd.bind (fun c => c.calibrationMark)) then
        blk 3 "dcc:identifications"
          (blk 4 "dcc:identification"
             ([XLine.t 5 "dcc:issuer" "calibrationLaboratory"] ++
              [XLine.t 5 "dcc:value" (escO (cd.bind (fun c => c.calibrationMark)))] ++
              blk 5 "dcc:name"
                ([XLine.ta 6 "dcc:content" [("lang", "de")] "Kalibrierzeichen"] ++
                 [XLine.ta 6 "dcc:content" [("lang", "en")] "Calibration mark"])) ++
           (if jsTruthy (cd.bind (fun c => c.orderNumber)) then orderIdent cd else []))
      else if jsTruthy (cd.bind (fun c => c.orderNumber)) then
        blk 3 "dcc:identifications" (orderIdent cd)
      else []) ++
     (if jsTruthy (cd.bind (fun c => c.previousReport)) then
        blk 3 "dcc:previousReport"
          (blk 4 "dcc:report"
             [XLine.t 5 "dcc:value" (escO (cd.bind (fun c => c.previousReport)))])
      else []) ++
     [XLine.t 3 "dcc:beginPerformanceDate" (esc (gOr beginDate "1970-01-01"))] ++
     [XLine.t 3 "dcc:endPerformanceDate" (esc (gOr endDate "1970-01-01"))] ++
     [XLine.t 3 "dcc:performanceLocation"
        (esc (gOr (cd.bind (fun c => c.performanceLocation)) "laboratory"))])

/-- Warnings pushed inside the coreData block (source lines 72 and 119),
in push order. -/
def coreWarnings (cd : Option CoreData) : List String :=
  (if jsTruthy (cd.bind (fun c => c.uniqueIdentifier)) then []
   else ["Zertifikatsnummer (uniqueIdentifier) fehlt."]) ++
  (if jsTruthy (cd.bind (fun c => c.beginPerformanceDate)) then []
   else ["Kalibrierdatum (beginPerformanceDate) fehlt."])

/-- One `dcc:identification` element: issuer, escaped value and the de/en
name contents — the element shape repeated at source lines 154–205,
261–278 and 453–491. -/
def identBlock (issuer value deName enName : String) : List XLine :=
  blk 5 "dcc:identification"
    ([XLine.t 6 "dcc:issuer" issuer] ++
     [XLine.t 6 "dcc:value" value] ++
     blk 6 "dcc:name"
       ([XLine.ta 7 "dcc:content" [("lang", "de")] deName] ++
        [XLine.ta 7 "dcc:content" [("lang", "en")] enName]))

/-- Source line 209: an item carries no identification at all. -/
def itemNoId (it : DccItem) : Bool :=
  !(jsTruthy it.serialNumber || jsTruthy it.inventoryNumber || jsTruthy it.equipmentNumber ||
    jsTruthy it.testEquipmentNumber || jsTruthy it.tagNumber)

/-- Source lines 223–242: the description parts collected for an item. -/
def itemDescParts (it : DccItem) : List String :=
  pPart it.description "" ++
  pPart it.parameter "Messparameter: " ++
  pPart it.measuringRange "Messbereich: " ++
  pPart it.signalOutput "Signalausgang: " ++
  pPart it.calibrationRange "Kalibrierbereich: " ++
  pPart it.medium "Medium: " ++
  (match it.mediumConditions with
   | some mcs =>
       if mcs.length > 0 then
         ["Mediumbedingungen: " ++
          strIntercalate ", " (mcs.map (fun c => gU c.name ++ ": " ++ gU c.value))]
       else []
   | none => []) ++
  (match it.calibrationFactorsAsFound with
   | some cfs =>
       if cfs.length > 0 then
         ["Kalibrierfaktoren (As Found): " ++
          strIntercalate ", " (cfs.map (fun c => c.value.getD ""))]
       else []
   | none => []) ++
  (match it.calibrationFactorsAsLeft with
   | some cfs =>
       if cfs.length > 0 then
         ["Kalibrierfaktoren (As Left): " ++
          strIntercalate ", " (cfs.map (fun c => c.value.getD ""))]
       else []
   | none => []) ++
  pPart it.mpe "MPE: "

/-- Source lines 131–251: one `dcc:item` element. -/
def itemLines (lang : String) (it : DccItem) : List XLine :=
  blk 3 "dcc:item"
    (blk 4 "dcc:name"
       [XLine.ta 5 "dcc:content" [("lang", esc lang)] (esc (gOr it.name "Prüfling"))] ++
     (if jsTruthy it.manufacturer then
        blk 4 "dcc:manufacturer"
          (blk 5 "dcc:name"
             [XLine.ta 6 "dcc:content" [("lang", esc lang)] (escO it.manufacturer)])
      else []) ++
     (if jsTruthy it.model then [XLine.t 4 "dcc:model" (escO it.model)] else []) ++
     blk 4 "dcc:identifications"
       ((if jsTruthy it.serialNumber then
           identBlock "manufacturer" (escO it.serialNumber) "Seriennummer" "Serial number"
         else []) ++
        (if jsTruthy it.inventoryNumber then
           identBlock "customer" (escO it.inventoryNumber) "Inventarnummer" "Inventory number"
         else []) ++
        (if jsTruthy it.equipmentNumber then
           identBlock "customer" (escO it.equipmentNumber) "Equipment-Nr." "Equipment number"
         else []) ++
        (if jsTruthy it.testEquipmentNumber then
           identBlock "calibrationLaboratory" (escO it.testEquipmentNumber) "Prüfmittel-Nr."
             "Test equipment number"
         else []) ++
        (if jsTruthy it.tagNumber then
           identBlock "customer" (escO it.tagNumber) "Tag-Nr." "Tag number"
         else []) ++
        (if itemNoId it then
           blk 5 "dcc:identification"
             ([XLine.t 6 "dcc:issuer" "other"] ++
              [XLine.t 6 "dcc:value" "N/A"] ++
              blk 6 "dcc:name"
                [XLine.ta 7 "dcc:content" [("lang", esc lang)] "Kennung"])
         else [])) ++
     (if (itemDescParts it).length > 0 then
        blk 4 "dcc:description"
          [XLine.ta 5 "dcc:content" [("lang", esc lang)]
             (esc (strIntercalate "; " (itemDescParts it)))]
      else []))

/-- Source line 217: the warning pushed while rendering an item without
any identification. -/
def itemWarnings (it : DccItem) : List String :=
  if itemNoId it then ["Keine Seriennummer oder Inventarnummer gefunden."] else []

/-- Source lines 255–287: one accessory rendered as an extra `dcc:item`. -/
def accLines (lang : String) (acc : Accessory) : List XLine :=
  blk 3 "dcc:item"
    (blk 4 "dcc:name"
       [XLine.ta 5 "dcc:content" [("lang", esc lang)]
          (esc (gOr acc.description (gOr acc.type "Zubehör")))] ++
     blk 4 "dcc:identifications"
       (if jsTruthy acc.serialNumber then
          identBlock "manufacturer" (escO acc.serialNumber) "Seriennummer" "Serial number"
        else
          identBlock "other" (esc (gOr acc.type "N/A")) "Typ" "Type") ++
     (if jsTruthy acc.description && jsTruthy acc.type then
        blk 4 "dcc:description"
          [XLine.ta 5 "dcc:content" [("lang", esc lang)]
             ("Zubehör/Komponente: " ++ escO acc.type)]
      else []))

/-- Source lines 292–322: the `dcc:calibrationLaboratory` block (the
source defaults a missing object to `{}`). -/
def labLines (lang country : String) (lab : Lab) : List XLine :=
  blk 2 "dcc:calibrationLaboratory"
    ((if jsTruthy lab.calibrationLaboratoryCode then
        [XLine.t 3 "dcc:calibrationLaboratoryCode" (escO lab.calibrationLaboratoryCode)]
      else []) ++
     blk 3 "dcc:contact"
       (blk 4 "dcc:name"
          [XLine.ta 5 "dcc:content" [("lang", esc lang)]
             (esc (gOr lab.name "Kalibrierlaboratorium"))] ++
        (if jsTruthy lab.eMail then [XLine.t 4 "dcc:eMail" (escO lab.eMail)] else []) ++
        (if jsTruthy lab.phone then [XLine.t 4 "dcc:phone" (escO lab.phone)] else []) ++
        (if jsTruthy lab.fax then [XLine.t 4 "dcc:fax" (escO lab.fax)] else []) ++
        blk 4 "dcc:location"
          ((if jsTruthy lab.street then [XLine.t 5 "dcc:street" (escO lab.street)] else []) ++
           (if jsTruthy lab.postCode then [XLine.t 5 "dcc:postCode" (escO lab.postCode)] else []) ++
           (if jsTruthy lab.city then [XLine.t 5 "dcc:city" (escO lab.city)] else []) ++
           [XLine.t 5 "dcc:countryCode" (esc (gOr lab.country country))])))

/-- Source lines 337–351: one `dcc:respPerson` element. -/
def personLines (lang : String) (p : Person) : List XLine :=
  blk 3 "dcc:respPerson"
    (blk 4 "dcc:person"
       (blk 5 "dcc:name"
          [XLine.ta 6 "dcc:content" [("lang", esc lang)] (escO p.name)]) ++
     (if jsTruthy p.role then [XLine.t 4 "dcc:role" (escO p.role)] else []) ++
     (if p.isMainSigner.getD false then [XLine.t 4 "dcc:mainSigner" "true"] else []))

/-- Source lines 325–353: the `dcc:respPersons` block with its placeholder
person when the list is empty. -/
def respLines (lang : String) (persons : List Person) : List XLine :=
  blk 2 "dcc:respPersons"
    (if persons.length = 0 then
       blk 3 "dcc:respPerson"
         (blk 4 "dcc:person"
            (blk 5 "dcc:name"
               [XLine.ta 6 "dcc:content" [("lang", esc lang)] "Nicht angegeben"]))
     else (persons.map (personLines lang)).flatten)

/-- Source line 328: the warning for an empty responsible-person list. -/
def respWarnings (persons : List Person) : List String :=
  if persons.length = 0 then ["Keine verantwortliche Person gefunden."] else []

/-- Source lines 356–379: the `dcc:customer` block (missing object
defaults to `{}`). -/
def customerLines (lang country : String) (cu : Customer) : List XLine :=
  blk 2 "dcc:customer"
    (blk 3 "dcc:name"
       [XLine.ta 4 "dcc:content" [("lang", esc lang)] (esc (gOr cu.name "Auftraggeber"))] ++
     (if jsTruthy cu.eMail then [XLine.t 3 "dcc:eMail" (escO cu.eMail)] else []) ++
     (if jsTruthy cu.phone then [XLine.t 3 "dcc:phone" (escO cu.phone)] else []) ++
     blk 3 "dcc:location"
       ((if jsTruthy cu.street then [XLine.t 4 "dcc:street" (escO cu.street)] else []) ++
        (if jsTruthy cu.postCode then [XLine.t 4 "dcc:postCode" (escO cu.postCode)] else []) ++
        (if jsTruthy cu.city then [XLine.t 4 "dcc:city" (escO cu.city)] else []) ++
        [XLine.t 4 "dcc:countryCode" (esc (gOr cu.country country))]) ++
     (if jsTruthy cu.contactPerson then
        blk 3 "dcc:description"
          ([XLine.ta 4 "dcc:content" [("lang", "de")]
              ("Ansprechpartner: " ++ escO cu.contactPerson)] ++
           [XLine.ta 4 "dcc:content" [("lang", "en")]
              ("Contact person: " ++ escO cu.contactPerson)])
      else []))

/-- Source lines 393–397: the description parts of a statement. -/
def stmtDescParts (st : Stmt) : List String :=
  pPart st.description "" ++
  pPart st.decisionRule "Entscheidungsregel: " ++
  pPart st.conformityProbability "Konformitätswahrscheinlichkeit: " ++
  pPart st.norm "Norm: "

/-- Source lines 385–407: one `dcc:statement` element. -/
def stmtLines (lang : String) (st : Stmt) : List XLine :=
  blk 3 "dcc:statement"
    ((if jsTruthy st.name then
        blk 4 "dcc:name"
          [XLine.ta 5 "dcc:content" [("lang", esc lang)] (escO st.name)]
      else []) ++
     (if (stmtDescParts st).length > 0 then
        blk 4 "dcc:description"
          [XLine.ta 5 "dcc:content" [("lang", esc lang)]
             (esc (strIntercalate "\n" (stmtDescParts st)))]
      else []) ++
     (if jsTruthy st.conformity then
        [XLine.t 4 "dcc:conformity" (escO st.conformity)]
      else []))

/-- Source lines 382–421: the `dcc:statements` block, emitted only when
there are statements or remarks; remarks become a fixed trailing
statement. -/
def statementsLines (lang : String) (sts : List Stmt) (remarks : Option String) : List XLine :=
  if sts.length > 0 || jsTruthy remarks then
    blk 2 "dcc:statements"
      ((sts.map (stmtLines lang)).flatten ++
       (if jsTruthy remarks then
          blk 3 "dcc:statement"
            (blk 4 "dcc:name"
               ([XLine.ta 5 "dcc:content" [("lang", "de")] "Bemerkungen"] ++
                [XLine.ta 5 "dcc:content" [("lang", "en")] "Remarks"]) ++
             blk 4 "dcc:description"
               [XLine.ta 5 "dcc:content" [("lang", esc lang)] (escO remarks)])
        else []))
  else []

/-- Source lines 496–499: equipment description parts. -/
def equipDescParts (eq : Equip) : List String :=
  pPart eq.traceability "Rückführung: " ++
  pPart eq.calibrationDate "Kalibrierdatum: " ++
  pPart eq.nextCalibrationDate "Nächste Kalibrierung: "

/-- Source lines 434–506: one `dcc:measuringEquipment` element. -/
def equipLines (lang : String) (eq : Equip) : List XLine :=
  blk 3 "dcc:measuringEquipment"
    (blk 4 "dcc:name"
       [XLine.ta 5 "dcc:content" [("lang", esc lang)] (escO eq.name)] ++
     (if jsTruthy eq.manufacturer then
        blk 4 "dcc:manufacturer"
          (blk 5 "dcc:name"
             [XLine.ta 6 "dcc:content" [("lang", esc lang)] (escO eq.manufacturer)])
      else []) ++
     (if jsTruthy eq.model then [XLine.t 4 "dcc:model" (escO eq.model)] else []) ++
     (if jsTruthy eq.serialNumber || jsTruthy eq.certificateNumber ||
         jsTruthy eq.equipmentNumber || jsTruthy eq.calibrationMark then
        blk 4 "dcc:identifications"
          ((if jsTruthy eq.serialNumber then
              identBlock "manufacturer" (escO eq.serialNumber) "Seriennummer" "Serial number"
            else []) ++
           (if jsTruthy eq.equipmentNumber then
              identBlock "calibrationLaboratory" (escO eq.equipmentNumber) "Equipment-Nr."
                "Equipment number"
            else []) ++
           (if jsTruthy eq.certificateNumber then
              identBlock "calibrationLaboratory" (escO eq.certificateNumber)
                "Kalibrierzertifikat-Nr." "Calibration certificate number"
            else []) ++
           (if jsTruthy eq.calibrationMark then
              identBlock "calibrationLaboratory" (escO eq.calibrationMark) "Kalibrierzeichen"
                "Calibration mark"
            else []))
      else []) ++
     (if (equipDescParts eq).length > 0 then
        blk 4 "dcc:description"
          [XLine.ta 5 "dcc:content" [("lang", esc lang)]
             (esc (strIntercalate "; " (equipDescParts eq)))]
      else []))

/-- Source lines 431–508: the optional `dcc:measuringEquipments` block. -/
def equipmentsLines (lang : String) (eqs : List Equip) : List XLine :=
  if eqs.length > 0 then
    blk 2 "dcc:measuringEquipments" ((eqs.map (equipLines lang)).flatten)
  else []

/-- Source lines 565–576: one `dcc:usedMethod` element from the
`usedMethods` array. -/
def methodLines (lang : String) (m : UsedMethod) : List XLine :=
  blk 4 "dcc:usedMethod"
    (blk 5 "dcc:name"
       [XLine.ta 6 "dcc:content" [("lang", esc lang)] (escO m.name)] ++
     (if jsTruthy m.description then
        blk 5 "dcc:description"
          [XLine.ta 6 "dcc:content" [("lang", esc lang)] (escO m.description)]
      else []))

/-- Source lines 590–628: the data of one influence condition — a min/max
range, a single value with optional uncertainty, or `dcc:noQuantity`. -/
def condData (cond : InflCond) : List XLine :=
  match cond.min, cond.max with
  | some mn, some mx =>
      blk 6 "dcc:quantity"
        (blk 7 "dcc:name"
           [XLine.ta 8 "dcc:content" [("lang", "de")] "Minimum"] ++
         blk 7 "si:real"
           ([XLine.t 8 "si:value" (jsNumToStr mn)] ++
            [XLine.t 8 "si:unit" (esc (gOr cond.unit ""))])) ++
      blk 6 "dcc:quantity"
        (blk 7 "dcc:name"
           [XLine.ta 8 "dcc:content" [("lang", "de")] "Maximum"] ++
         blk 7 "si:real"
           ([XLine.t 8 "si:value" (jsNumToStr mx)] ++
            [XLine.t 8 "si:unit" (esc (gOr cond.unit ""))]))
  | _, _ =>
      match cond.value with
      | some v =>
          blk 6 "dcc:quantity"
            (blk 7 "si:real"
               ([XLine.t 8 "si:value" (jsNumToStr v)] ++
                [XLine.t 8 "si:unit" (esc (gOr cond.unit ""))] ++
                optLines cond.uncertainty (fun u =>
                  blk 8 "si:expandedUnc"
                    ([XLine.t 9 "si:uncertainty" (jsNumToStr u)] ++
                     [XLine.t 9 "si:coverageFactor" "2"] ++
                     [XLine.t 9 "si:coverageProbability" "0.95"]))))
      | none =>
          blk 6 "dcc:quantity" [XLine.sc 7 "dcc:noQuantity"]

/-- Source lines 584–631: one `dcc:influenceCondition` element. -/
def condLines (lang : String) (cond : InflCond) : List XLine :=
  blk 4 "dcc:influenceCondition"
    (blk 5 "dcc:name"
       [XLine.ta 6 "dcc:content" [("lang", esc lang)] (escO cond.name)] ++
     blk 5 "dcc:data" (condData cond))

/-- One `dcc:quantity` with `refType`, de/en names, `si:value` and
`si:unit` — the shape at source lines 668–677, 684–693, 723–732 and
739–758. -/
def quantBlock (refType deName enName valStr unitStr : String) : List XLine :=
  blkA 7 "dcc:quantity" [("refType", refType)]
    (blk 8 "dcc:name"
       ([XLine.ta 9 "dcc:content" [("lang", "de")] deName] ++
        [XLine.ta 9 "dcc:content" [("lang", "en")] enName]) ++
     blk 8 "si:real"
       ([XLine.t 9 "si:value" valStr] ++
        [XLine.t 9 "si:unit" unitStr]))

/-- Source lines 736–759: the two acceptance-limit quantities emitted for
a present tolerance (`allowedDeviation ?? mpe`). -/
def tolSeg (unitStr : String) : Option NumOrStr → List XLine
  | some tv =>
      quantBlock "basic_acceptanceLimitLower" "Zul. Abweichung (untere)"
        "Acceptance limit (lower)" (tolLower tv) unitStr ++
      quantBlock "basic_acceptanceLimitUpper" "Zul. Abweichung (obere)"
        "Acceptance limit (upper)" (tolUpper tv) unitStr
  | none => []

/-- Source lines 657–775: one `dcc:list` element for a result point. -/
def pointLines (lang : String) (r : RPoint) : List XLine :=
  blk 6 "dcc:list"
    ((if jsTruthy r.name then
        blk 7 "dcc:name"
          [XLine.ta 8 "dcc:content" [("lang", esc lang)] (escO r.name)]
      else []) ++
     optLines r.setPoint (fun v =>
       quantBlock "basic_setPoint" "Sollwert" "Set point" (jsNumToStr v)
         (esc (gOr r.setPointUnit (gOr r.nominalUnit "")))) ++
     optLines (r.nominalValue.or r.referenceValue) (fun v =>
       quantBlock "basic_referenceValue" "Bezugswert" "Reference value" (jsNumToStr v)
         (esc (gOr r.nominalUnit (gOr r.referenceUnit (gOr r.measuredUnit ""))))) ++
     optLines r.measuredValue (fun v =>
       blkA 7 "dcc:quantity" [("refType", "basic_measuredValue")]
         (blk 8 "dcc:name"
            ([XLine.ta 9 "dcc:content" [("lang", "de")] "Messwert"] ++
             [XLine.ta 9 "dcc:content" [("lang", "en")] "Measured value"]) ++
          blk 8 "si:real"
            ([XLine.t 9 "si:value" (jsNumToStr v)] ++
             [XLine.t 9 "si:unit" (esc (gOr r.measuredUnit ""))] ++
             optLines r.uncertainty (fun u =>
               blk 9 "si:expandedUnc"
                 ([XLine.t 10 "si:uncertainty" (jsNumToStr u)] ++
                  optLines r.coverageFactor (fun cf =>
                    [XLine.t 10 "si:coverageFactor" (jsNumToStr cf)]) ++
                  optLines r.coverageProbability (fun cp =>
                    [XLine.t 10 "si:coverageProbability" (jsNumToStr cp)])))))) ++
     optLines r.deviation (fun v =>
       quantBlock "basic_measurementError" "Abweichung" "Deviation" (jsNumToStr v)
         (esc (gOr r.deviationUnit (gOr r.measuredUnit "")))) ++
     tolSeg (esc (gOr r.allowedDeviationUnit (gOr r.mpeUnit (gOr r.measuredUnit ""))))
       (r.allowedDeviation.or r.mpe) ++
     (if jsTruthy r.conformity then
        blkA 7 "dcc:quantity" [("refType", "basic_conformity")]
          (blk 8 "dcc:name"
             ([XLine.ta 9 "dcc:content" [("lang", "de")] "Bewertung"] ++
              [XLine.ta 9 "dcc:content" [("lang", "en")] "Conformity"]) ++
           blk 8 "dcc:noQuantity"
             [XLine.ta 9 "dcc:content" [("lang", esc lang)] (escO r.conformity)])
      else []))

/-- Source lines 639–648 (also 520–529): the placeholder `dcc:result`
holding a `dcc:noQuantity`. -/
def noQuantResult (lang : String) : List XLine :=
  blk 4 "dcc:result"
    (blk 5 "dcc:name"
       [XLine.ta 6 "dcc:content" [("lang", esc lang)] "Ergebnis"] ++
     blk 5 "dcc:data"
       (blk 6 "dcc:quantity" [XLine.sc 7 "dcc:noQuantity"]))

/-- Source lines 543–547: measurement-result description parts. -/
def mrDescParts (mr : MeasResult) : List String :=
  pPart mr.description "" ++
  pPart mr.calibrationProcedure "" ++
  pPart mr.referenceStandard "Referenzmaterial: " ++
  pPart mr.decisionRule "Entscheidungsregel: "

/-- Source lines 533–783: one `dcc:measurementResult` element. -/
def mrLines (lang : String) (mr : MeasResult) : List XLine :=
  blk 2 "dcc:measurementResult"
    (blk 3 "dcc:name"
       [XLine.ta 4 "dcc:content" [("lang", esc lang)] (esc (gOr mr.name "Messergebnis"))] ++
     (if (mrDescParts mr).length > 0 then
        blk 3 "dcc:description"
          [XLine.ta 4 "dcc:content" [("lang", esc lang)]
             (esc (strIntercalate "\n\n" (mrDescParts mr)))]
      else []) ++
     (if jsTruthy mr.method || (mr.usedMethods.getD []).length > 0 then
        blk 3 "dcc:usedMethods"
          ((if jsTruthy mr.method then
              blk 4 "dcc:usedMethod"
                (blk 5 "dcc:name"
                   [XLine.ta 6 "dcc:content" [("lang", esc lang)] (escO mr.method)])
            else []) ++
           ((mr.usedMethods.getD []).map (methodLines lang)).flatten)
      else []) ++
     (if (mr.influenceConditions.getD []).length > 0 then
        blk 3 "dcc:influenceConditions"
          (((mr.influenceConditions.getD []).map (condLines lang)).flatten)
      else []) ++
     blk 3 "dcc:results"
       (if (mr.results.getD []).length = 0 then
          noQuantResult lang
        else
          blk 4 "dcc:result"
            (blk 5 "dcc:name"
               [XLine.ta 6 "dcc:content" [("lang", esc lang)]
                  (esc (gOr mr.name "Kalibrierergebnisse"))] ++
             blk 5 "dcc:data" (((mr.results.getD []).map (pointLines lang)).flatten))))

/-- Source lines 512–531: the placeholder `dcc:measurementResult` emitted
when the list is empty. -/
def emptyMrLines (lang : String) : List XLine :=
  blk 2 "dcc:measurementResult"
    (blk 3 "dcc:name"
       [XLine.ta 4 "dcc:content" [("lang", esc lang)] "Messergebnis"] ++
     blk 3 "dcc:results" (noQuantResult lang))

/-- Source line 513: the warning for an empty measurement-result list. -/
def mrWarnings (mrs : List MeasResult) : List String :=
  if mrs.length = 0 then ["Keine Messergebnisse gefunden."] else []

/-- Source lines 798–806: the comment parts (calibration location and
SOPs). -/
def commentParts (data : DccData) : List String :=
  (match data.calibrationLocation with
   | some loc =>
       ["Kalibrierort: " ++
        strIntercalate ", "
          (([loc.name, loc.street,
             some (strTrim (gOr loc.postCode "" ++ " " ++ gOr loc.city "")),
             loc.country].filterMap
             (fun o => match o with
                       | some s => if s = "" then none else some s
                       | none => none)))]
   | none => []) ++
  (if (data.calibrationSOPs.getD []).length > 0 then
     ["Kalibrierverfahren (SOPs):\n" ++
      strIntercalate "\n"
        ((data.calibrationSOPs.getD []).map
          (fun s => gU s.sopNumber ++ ": " ++ gOr s.description ""))]
   else [])

/-- Source lines 789–810: the optional trailing `dcc:comment` block. -/
def commentLines (lang : String) (data : DccData) : List XLine :=
  if (data.calibrationSOPs.getD []).length > 0 || data.calibrationLocation.isSome then
    blk 1 "dcc:comment"
      (blk 2 "dcc:name"
         ([XLine.ta 3 "dcc:content" [("lang", "de")] "Zusätzliche Informationen"] ++
          [XLine.ta 3 "dcc:content" [("lang", "en")] "Additional information"]) ++
       blk 2 "dcc:description"
         [XLine.ta 3 "dcc:content" [("lang", esc lang)]
            (esc (strIntercalate "\n\n" (commentParts data)))])
  else []

/-- Source line 130: `data.items || [{}]` — only a missing (not an empty)
array is replaced by the single placeholder item. -/
def dccItems (data : DccData) : List DccItem :=
  match data.items with
  | some l => l
  | none => [{}]

/-- Source line 36: `data.coreData?.languageCode || 'de'`. -/
def genLang (data : DccData) : String :=
  gOr (data.coreData.bind (fun c => c.languageCode)) "de"

/-- Source line 38: `data.coreData?.countryCodeISO3166_1 || 'DE'`. -/
def genCountry (data : DccData) : String :=
  gOr (data.coreData.bind (fun c => c.countryCodeISO3166_1)) "DE"

/-- All lines pushed by `generateDccXml`, in push order (source lines
41–813). -/
def genBody (data : DccData) : List XLine :=
  headLines ++
  blk 1 "dcc:administrativeData"
    (dccSoftwareLines ++
     coreDataLines data.coreData (genLang data) (genCountry data) ++
     blk 2 "dcc:items"
       (((dccItems data).map (itemLines (genLang data))).flatten ++
        ((data.accessories.getD []).map (accLines (genLang data))).flatten) ++
     labLines (genLang data) (genCountry data) (data.calibrationLaboratory.getD {}) ++
     respLines (genLang data) (data.respPersons.getD []) ++
     customerLines (genLang data) (genCountry data) (data.customer.getD {}) ++
     statementsLines (genLang data) (data.statements.getD []) data.remarks) ++
  blk 1 "dcc:measurementResults"
    (equipmentsLines (genLang data) (data.measuringEquipments.getD []) ++
     (if (data.measurementResults.getD []).length = 0 then
        emptyMrLines (genLang data)
      else ((data.measurementResults.getD []).map (mrLines (genLang data))).flatten)) ++
  commentLines (genLang data) data ++
  [XLine.c 0 "dcc:digitalCalibrationCertificate"]

/-- All warnings pushed by `generateDccXml`, in push order (source lines
72, 119, 217, 328, 513). -/
def genWarnings (data : DccData) : List String :=
  coreWarnings data.coreData ++
  ((dccItems data).map itemWarnings).flatten ++
  respWarnings (data.respPersons.getD []) ++
  mrWarnings (data.measurementResults.getD [])

/-- The generator's output lines and warnings. -/
def genLines (data : DccData) : List XLine × List String :=
  (genBody data, genWarnings data)

/-- Source line 815: `{ xml: lines.join('\n'), warnings }`. -/
def generateDccXml (data : DccData) : String × List String :=
  (strIntercalate "\n" ((genBody data).map renderLine), genWarnings data)

/-- Count the opening tags named `n` among the lines (each rendered
element contributes exactly one opening line). -/
def countTag (ls : List XLine) (n : String) : Nat :=
  (ls.filter (fun l =>
    match l with
    | XLine.o _ m => m == n
    | XLine.oa _ m _ => m == n
    | _ => false)).length

/-- Source lines 823–852: `validateData`, a separate export the generator
never calls. -/
def validateData (data : DccData) : List String :=
  (if jsTruthy (data.coreData.bind (fun c => c.uniqueIdentifier)) then []
   else ["Zertifikatsnummer fehlt."]) ++
  (if jsTruthy (data.coreData.bind (fun c => c.beginPerformanceDate)) then []
   else ["Kalibrierdatum fehlt."]) ++
  (if jsTruthy (data.calibrationLaboratory.bind (fun l => l.name)) then []
   else ["Name des Kalibrierlaboratoriums fehlt."]) ++
  (if jsTruthy (data.customer.bind (fun c => c.name)) then []
   else ["Name des Auftraggebers fehlt."]) ++
  (if (data.items.getD []).length = 0 then ["Kein Prüfling angegeben."] else []) ++
  (if (data.measurementResults.getD []).length = 0 then
     ["Keine Messergebnisse vorhanden."] else []) ++
  (if (data.measuringEquipments.getD []).length = 0 then
     ["Keine Messeinrichtungen/Referenznormale angegeben."] else []) ++
  (if (data.statements.getD []).length = 0 then
     ["Keine Konformitätsaussage vorhanden."] else [])

/-- A string-typed tolerance is tag-safe. -/
def cleanTol : Option NumOrStr → Bool
  | some (NumOrStr.str s) => textOk s
  | _ => true

/-- Both tolerance fields of a result point are tag-safe. -/
def cleanPoint (r : RPoint) : Bool :=
  cleanTol r.allowedDeviation && cleanTol r.mpe

/-- Every string-typed tolerance in the input is tag-safe — tolerances are
the only free text the generator interpolates without escaping. -/
def cleanData (data : DccData) : Bool :=
  (data.measurementResults.getD []).all (fun mr => (mr.results.getD []).all cleanPoint)

/-- DCC-JSON input whose only content is one result point with the
string-typed tolerance `<` in `mpe` — the unescaped interpolation breaks
the tag structure. -/
def c9dirty : DccData :=
  { measurementResults := some [{ results := some [{ mpe := some (NumOrStr.str "<") }] }] }

/-! ## Helper lemmas -/

theorem firstOf_none_of (root : XElem) (ctx : NodePath) :
    ∀ l : List String, (∀ s ∈ l, noRaw root ctx (some s)) →
      extractFirstOf root ctx l = none := by
  intro l h
  induction l with
  | nil => rfl
  | cons s rest ih =>
    have hs := h s (List.mem_cons_self s rest)
    have hrest : ∀ x ∈ rest, noRaw root ctx (some x) :=
      fun x hx => h x (List.mem_cons_of_mem s hx)
    rcases hs with hn | he
    · simp only [extractFirstOf, hn]
      exact ih hrest
    · simp only [extractFirstOf, he, ne_eq, not_true_eq_false, if_false]
      exact ih hrest

theorem concat_none_of (root : XElem) (ctx : NodePath) (f : MRule)
    (h : ∀ s ∈ f.sources.getD [], noRaw root ctx (some s)) :
    extractConcat root ctx f = none := by
  unfold extractConcat
  have hnil : ((f.sources.getD []).filterMap fun src =>
      match resolveRawValue root ctx (some src) with
      | some raw => if raw = "" then none else some raw
      | none => none) = [] := by
    rw [List.filterMap_eq_nil_iff]
    intro a ha
    rcases h a ha with hn | he
    · simp [hn]
    · simp [he]
  simp [hnil]

theorem tmplFold_snd (root : XElem) (ctx : NodePath) :
    ∀ (l : List (Nat × String)) (acc : String × Bool),
      (∀ x ∈ l, (resolveRawValue root ctx (some x.2)).getD "" = "") →
      (l.foldl (tmplStep root ctx) acc).2 = acc.2 := by
  intro l
  induction l with
  | nil => intro acc _; rfl
  | cons x rest ih =>
    intro acc h
    rw [List.foldl_cons, ih _ (fun y hy => h y (List.mem_cons_of_mem x hy))]
    have hx := h x (List.mem_cons_self x rest)
    simp [tmplStep, hx]

theorem template_none_of (root : XElem) (ctx : NodePath) (f : MRule)
    (h : ∀ s ∈ f.sources.getD [], noRaw root ctx (some s)) :
    extractTemplate root ctx f = none := by
  unfold extractTemplate
  have hsnd : ((f.sources.getD []).enum.foldl (tmplStep root ctx)
      (f.template.getD "", false)).2 = false := by
    apply tmplFold_snd
    intro x hx
    have hx2 : x.2 ∈ f.sources.getD [] := by
      exact List.getElem?_mem (List.mem_enum_iff_getElem?.1 hx)
    rcases h x.2 hx2 with hn | he
    · simp [hn]
    · simp [he]
  simp [hsnd]

/-! ## Claim theorems -/

/-- **C1** (amended): for every rule kind with a resolved source value
except `lookup` — the scalar kinds (`string`, `number`, `integer`,
`boolean`, `date`, and any unknown type string) and the multi-source kinds
(`concat`, `template`, `firstOf`) — an absent or empty-string resolved
source yields a null value, the target key is not written, and no failure
occurs; a `conformity` rule whose source path matches no node likewise
yields null. -/
theorem C1_absent_or_empty_source_omitted (root : XElem) (f : MRule) :
    (f.type ∉ (["static", "lookup", "asFoundAsLeft", "conformity", "array"] :
        List String) →
      (∀ ctx, (∀ s ∈ srcPaths f, noRaw root ctx s) →
        extractValue root ctx f = none) ∧
      (∀ res, (∀ s ∈ srcPaths f, noRaw root [] s) →
        applyRule root f res = Except.ok res)) ∧
    (f.type = "conformity" → ∀ ctx, jsTruthy f.source = true →
      f.source ≠ some "." → f.source.bind (findFirst root ctx) = none →
      extractValue root ctx f = none) := by
  constructor
  · intro hty
    simp only [List.mem_cons, List.not_mem_nil, or_false, not_or] at hty
    obtain ⟨h1, h2, h3, h4, h5⟩ := hty
    have hev : ∀ ctx, (∀ s ∈ srcPaths f, noRaw root ctx s) →
        extractValue root ctx f = none := by
      intro ctx hsrc
      by_cases hc : f.type = "concat"
      · unfold extractValue
        rw [if_neg h1, if_pos hc]
        have : extractConcat root ctx f = none := by
          apply concat_none_of
          intro s hs
          apply hsrc (some s)
          simp [srcPaths, hc]
          exact hs
        simp [this]
      · by_cases ht : f.type = "template"
        · unfold extractValue
          rw [if_neg h1, if_neg hc, if_pos ht]
          have : extractTemplate root ctx f = none := by
            apply template_none_of
            intro s hs
            apply hsrc (some s)
            simp [srcPaths, ht]
            exact hs
          simp [this]
        · by_cases hfo : f.type = "firstOf"
          · unfold extractValue
            rw [if_neg h1, if_neg hc, if_neg ht, if_neg h2, if_pos hfo]
            have : extractFirstOf root ctx (f.sources.getD []) = none := by
              apply firstOf_none_of
              intro s hs
              apply hsrc (some s)
              simp [srcPaths, hfo]
              exact hs
            simp [this]
          · unfold extractValue
            rw [if_neg h1, if_neg hc, if_neg ht, if_neg h2, if_neg hfo,
              if_neg h3, if_neg h4]
            have hone : noRaw root ctx f.source := by
              apply hsrc
              simp [srcPaths, hc, ht, hfo]
            cases hsq : f.source with
            | none => rfl
            | some src =>
              rw [hsq] at hone
              by_cases hse : src = ""
              · simp [hse]
              · rcases hone with hn | he
                · simp [hse, hn]
                · simp [hse, he]
    refine ⟨hev, ?_⟩
    intro res hsrc
    unfold applyRule
    rw [if_neg h5, hev [] hsrc]
  · intro hcf ctx htr hne hff
    have hbody : extractValue root ctx f =
        (extractConformity root ctx f.source).map JValue.vStr := by
      simp [extractValue, hcf]
    rw [hbody]
    unfold extractConformity
    rw [if_neg (by simp [htr, hne]), hff]
    rfl

/-- Witness for C1: a `string` rule whose source path matches nothing
yields null and leaves the output object untouched. -/
theorem C1_witness :
    extractValue c1doc [] c1wrule = none ∧
    applyRule c1doc c1wrule [] = Except.ok [] := by
  have h := (C1_absent_or_empty_source_omitted c1doc c1wrule).1 (by decide)
  have hsrc : ∀ s ∈ srcPaths c1wrule, noRaw c1doc [] s := by
    intro s hs
    have hsp : srcPaths c1wrule = [some "Missing"] := rfl
    rw [hsp, List.mem_singleton] at hs
    subst hs
    left
    rfl
  exact ⟨h.1 [] hsrc, h.2 [] hsrc⟩

/-- C1 as stated is false on the code: `<X a=""/>` with a `lookup` rule on
`@a` and an empty map — the resolved source value is the empty string, yet
the rule writes an explicit empty string under the target key `k`. -/
theorem C1_counterexample :
    resolveRawValue c1doc [] c1rule.source = some "" ∧
    applyRule c1doc c1rule [] = Except.ok [("k", JValue.vStr "")] ∧
    objGet [("k", JValue.vStr "")] "k" = some (JValue.vStr "") :=
  ⟨rfl, rfl, rfl⟩

/-- **C4** (amended): for a `number`/`integer` rule whose source resolves
to a non-empty string, the parsed value — NaN included, when the string
does not parse — is written under the target: the field is present, so a
parse failure is distinguishable from an absent source field. -/
theorem C4_nan_is_written (root : XElem) (f : MRule) (raw : String)
    (ht : f.type = "number" ∨ f.type = "integer")
    (hraw : resolveRawValue root [] f.source = some raw) (hne : raw ≠ "") :
    extractValue root [] f = some (JValue.vNum
      (if f.type = "number" then jsParseFloat raw else jsParseInt raw)) ∧
    ∀ res t, f.target = some t →
      applyRule root f res = Except.ok (setNested res (strSplit t ".")
        (JValue.vNum
          (if f.type = "number" then jsParseFloat raw else jsParseInt raw))) := by
  have hev : extractValue root [] f = some (JValue.vNum
      (if f.type = "number" then jsParseFloat raw else jsParseInt raw)) := by
    cases hsq : f.source with
    | none => rw [hsq] at hraw; exact absurd hraw (by simp [resolveRawValue])
    | some src =>
      have hse : src ≠ "" := by
        intro h
        rw [hsq, h] at hraw
        exact absurd hraw (by simp [resolveRawValue])
      rw [hsq] at hraw
      rcases ht with h | h <;>
      · simp only [extractValue, h, reduceIte, hsq, hse, hraw, if_neg hne,
          convertType]
        simp [hse, hne]
  refine ⟨hev, ?_⟩
  intro res t htg
  have harr : f.type ≠ "array" := by
    rcases ht with h | h <;> simp [h]
  unfold applyRule
  rw [if_neg harr, hev, htg]

/-- Witness for C4: `<X a="abc"/>` with a `number` rule on `@a` — the
unparseable value becomes NaN and is written under `x`. -/
theorem C4_witness :
    extractValue c4doc [] c4rule = some (JValue.vNum
      (if c4rule.type = "number" then jsParseFloat "abc" else jsParseInt "abc")) ∧
    jsParseFloat "abc" = JSNum.nan :=
  ⟨(C4_nan_is_written c4doc c4rule "abc" (Or.inl rfl) rfl (by decide)).1, rfl⟩

/-- C4 as stated is false on the code: the unparseable `number` source does
not lead to an omitted field — the target key `x` is present, holding NaN. -/
theorem C4_counterexample :
    applyRule c4doc c4rule [] = Except.ok [("x", JValue.vNum JSNum.nan)] ∧
    objGet [("x", JValue.vNum JSNum.nan)] "x" = some (JValue.vNum JSNum.nan) :=
  ⟨rfl, rfl⟩

/-- **C5** (amended): a raw value `"true"` or `"1"` converts to true and
everything else to false; a missing/empty source yields an omitted field;
but an explicit raw `"false"` IS distinguished from a missing value — it
produces the field present with boolean `false`. -/
theorem C5_boolean_conversion (root : XElem) (f : MRule)
    (hb : f.type = "boolean") :
    (∀ raw, resolveRawValue root [] f.source = some raw → raw ≠ "" →
      extractValue root [] f = some (JValue.vBool (raw = "true" ∨ raw = "1")) ∧
      ∀ res t, f.target = some t →
        applyRule root f res = Except.ok (setNested res (strSplit t ".")
          (JValue.vBool (raw = "true" ∨ raw = "1")))) ∧
    (∀ ctx, noRaw root ctx f.source → extractValue root ctx f = none) := by
  constructor
  · intro raw hraw hne
    have hev : extractValue root [] f = some (JValue.vBool (raw = "true" ∨ raw = "1")) := by
      cases hsq : f.source with
      | none => rw [hsq] at hraw; exact absurd hraw (by simp [resolveRawValue])
      | some src =>
        have hse : src ≠ "" := by
          intro h
          rw [hsq, h] at hraw
          exact absurd hraw (by simp [resolveRawValue])
        rw [hsq] at hraw
        simp only [extractValue, hb, reduceIte, hsq, hse, hraw, if_neg hne,
          convertType]
        simp [hse, hne]
    refine ⟨hev, ?_⟩
    intro res t htg
    unfold applyRule
    rw [if_neg (by simp [hb]), hev, htg]
  · intro ctx hnr
    cases hsq : f.source with
    | none => simp [extractValue, hb, hsq]
    | some src =>
      rw [hsq] at hnr
      by_cases hse : src = ""
      · simp [extractValue, hb, hsq, hse]
      · rcases hnr with hn | he
        · simp [extractValue, hb, hsq, hse, hn]
        · simp [extractValue, hb, hsq, hse, he]

/-- Witness for C5: `"false"` converts to boolean false and the field is
written; a missing source is omitted. -/
theorem C5_witness :
    applyRule c5doc c5rule [] = Except.ok
      (setNested [] (strSplit "k" ".") (JValue.vBool ("false" = "true" ∨ "false" = "1"))) ∧
    extractValue c1doc [] c5rule = none := by
  have h := C5_boolean_conversion c5doc c5rule rfl
  refine ⟨(h.1 "false" rfl (by decide)).2 [] "k" rfl, ?_⟩
  have h2 := (C5_boolean_conversion c1doc c5rule rfl).2 []
  apply h2
  right
  rfl

/-- C5 as stated is false on the code: `<X a="false"/>` with a `boolean`
rule does NOT produce an omitted field — the key `k` is present with the
value `false`, distinguishing it from a missing source. -/
theorem C5_counterexample :
    applyRule c5doc c5rule [] = Except.ok [("k", JValue.vBool false)] ∧
    objGet [("k", JValue.vBool false)] "k" = some (JValue.vBool false) :=
  ⟨rfl, rfl⟩

/-- **C6**: for a `lookup` rule with a non-null resolved raw value, the
result follows exactly this precedence chain: the map entry for the raw
value, else the entry for the lowercased raw value, else the `"*"`
wildcard entry, else the raw value unchanged. -/
theorem C6_lookup_precedence (root : XElem) (ctx : NodePath) (f : MRule)
    (hl : f.type = "lookup") (raw : String)
    (hraw : resolveRawValue root ctx f.source = some raw) :
    extractValue root ctx f = some (JValue.vStr
      (match lookupA (f.map.getD []) raw with
      | some v => v
      | none =>
        match lookupA (f.map.getD []) (strLower raw) with
        | some v => v
        | none =>
          match lookupA (f.map.getD []) "*" with
          | some v => v
          | none => raw)) := by
  have hbody : extractValue root ctx f = (extractLookup root ctx f).map JValue.vStr := by
    simp [extractValue, hl]
  rw [hbody]
  unfold extractLookup
  rw [hraw]
  generalize f.map.getD [] = m
  cases h1 : lookupA m raw <;>
    cases h2 : lookupA m (strLower raw) <;>
      cases h3 : lookupA m "*" <;>
        simp [Option.or, Option.getD, h1, h2, h3]

/-- Witness for C6: the four stages of the chain — exact key, lowercased
key, wildcard, and pass-through. -/
theorem C6_witness :
    extractValue (attrDoc "ExactKey") [] c6rule = some (JValue.vStr "E") ∧
    extractValue (attrDoc "EXACTKEY") [] c6rule = some (JValue.vStr "L") ∧
    extractValue (attrDoc "other") [] c6rule = some (JValue.vStr "W") ∧
    extractValue (attrDoc "zzz") [] c6rule2 = some (JValue.vStr "zzz") := by
  refine ⟨?_, ?_, ?_, ?_⟩
  · rw [C6_lookup_precedence (attrDoc "ExactKey") [] c6rule rfl "ExactKey" rfl]
    rfl
  · rw [C6_lookup_precedence (attrDoc "EXACTKEY") [] c6rule rfl "EXACTKEY" rfl]
    rfl
  · rw [C6_lookup_precedence (attrDoc "other") [] c6rule rfl "other" rfl]
    rfl
  · rw [C6_lookup_precedence (attrDoc "zzz") [] c6rule2 rfl "zzz" rfl]
    rfl

/-- **C8**: a `conformity` rule reads `isConform` from the context element
itself when `source` is absent (or empty) or `"."`, else from the element
resolved from `source`; `"true"` ↔ `"pass"`, `"false"` ↔ `"fail"`, and
anything else — attribute absent or no element resolved — yields null, in
which case the target field is omitted. -/
theorem C8_conformity (root : XElem) (ctx : NodePath) (f : MRule)
    (hc : f.type = "conformity") :
    (extractValue root ctx f = some (JValue.vStr "pass") ↔
      ∃ e, conformityCtxEl root ctx f.source = some e ∧
        getAttr e "isConform" = some "true") ∧
    (extractValue root ctx f = some (JValue.vStr "fail") ↔
      ∃ e, conformityCtxEl root ctx f.source = some e ∧
        getAttr e "isConform" = some "false") ∧
    (extractValue root ctx f = none ↔
      (conformityCtxEl root ctx f.source = none ∨
        ∃ e, conformityCtxEl root ctx f.source = some e ∧
          getAttr e "isConform" ≠ some "true" ∧
          getAttr e "isConform" ≠ some "false")) ∧
    (∀ res, extractValue root [] f = none → applyRule root f res = Except.ok res) := by
  have hbody : ∀ c, extractValue root c f =
      (extractConformity root c f.source).map JValue.vStr := by
    intro c
    simp [extractValue, hc]
  have hel : extractConformity root ctx f.source =
      (match conformityCtxEl root ctx f.source with
      | none => none
      | some e =>
        match getAttr e "isConform" with
        | some v =>
          if v = "true" then some "pass"
          else if v = "false" then some "fail"
          else none
        | none => none) := by
    unfold extractConformity conformityCtxEl
    cases hs : f.source with
    | none => simp [jsTruthy]
    | some s =>
      by_cases hse : s = ""
      · subst hse
        simp [jsTruthy]
      · by_cases hsd : s = "."
        · subst hsd
          simp [jsTruthy]
        · simp [jsTruthy, hse, hsd, Option.bind]
  refine ⟨?_, ?_, ?_, ?_⟩
  · rw [hbody, hel]
    cases hE : conformityCtxEl root ctx f.source with
    | none => simp [hE]
    | some e =>
      cases hA : getAttr e "isConform" with
      | none => simp [hA]
      | some v =>
        by_cases hv : v = "true"
        · subst hv
          simp [hA]
        · by_cases hv2 : v = "false" <;> simp [hA, hv, hv2]
  · rw [hbody, hel]
    cases hE : conformityCtxEl root ctx f.source with
    | none => simp [hE]
    | some e =>
      cases hA : getAttr e "isConform" with
      | none => simp [hA]
      | some v =>
        by_cases hv : v = "true"
        · subst hv
          simp [hA]
        · by_cases hv2 : v = "false"
          · subst hv2
            simp [hA]
          · simp [hA, hv, hv2]
  · rw [hbody, hel]
    cases hE : conformityCtxEl root ctx f.source with
    | none => simp [hE]
    | some e =>
      cases hA : getAttr e "isConform" with
      | none => simp [hA]
      | some v =>
        by_cases hv : v = "true"
        · subst hv
          simp [hA]
        · by_cases hv2 : v = "false"
          · subst hv2
            simp [hA]
          · simp [hA, hv, hv2]
  · intro res hev
    unfold applyRule
    rw [if_neg (by simp [hc]), hev]

/-- Witness for C8: spec scenario 2 — `<Point isConform="false"/>` yields
`"fail"`, `<Point/>` (attribute absent) yields null. -/
theorem C8_witness :
    extractValue c8docF [] c8rule = some (JValue.vStr "fail") ∧
    extractValue c8docA [] c8rule = none := by
  constructor
  · exact ((C8_conformity c8docF [] c8rule rfl).2.1).2 ⟨c8docF, rfl, rfl⟩
  · exact ((C8_conformity c8docA [] c8rule rfl).2.2.1).2
      (Or.inr ⟨c8docA, rfl, by decide, by decide⟩)

/-- Whether a rule throws when applied does not depend on the accumulated
result object (a rule fails only over its own `target`/value shape). -/
theorem applyRule_error_indep (root : XElem) (rule : MRule) (res res' : JObj)
    (h : applyRule root rule res = Except.error ()) :
    applyRule root rule res' = Except.error () := by
  unfold applyRule at h ⊢
  by_cases ha : rule.type = "array"
  · rw [if_pos ha] at h ⊢
    cases hp : processArr root (findPaths root [] (rule.source.getD ""))
        (rule.fields.getD []) with
    | error e => rfl
    | ok arr =>
      cases htg : rule.target with
      | none => rfl
      | some t =>
        rw [hp, htg] at h
        simp at h
  · rw [if_neg ha] at h ⊢
    cases hv : extractValue root [] rule with
    | none =>
      rw [hv] at h
      simp at h
    | some v =>
      cases htg : rule.target with
      | none => rfl
      | some t =>
        rw [hv, htg] at h
        simp at h

/-- **C2**: a failure thrown while evaluating one top-level rule is caught
and treated as that rule producing no value — the conversion result equals
that of the same profile without the failing rule, and the remaining rules
are unaffected; a conversion of a parsed document always returns an
object, and only a parse failure of the source XML aborts with an error,
returning no partial object. -/
theorem C2_failure_isolation (root : XElem) (pre post : List MRule) (r : MRule)
    (hfail : applyRule root r [] = Except.error ()) :
    convertXmlToDccJson (some root) (pre ++ r :: post) =
      convertXmlToDccJson (some root) (pre ++ post) ∧
    (∃ o, convertXmlToDccJson (some root) (pre ++ r :: post) = Except.ok o) ∧
    (∀ mappings, convertXmlToDccJson none mappings =
      Except.error "XML parse error") := by
  have hstep : ∀ acc : JObj,
      (match applyRule root r acc with
      | .ok x => x
      | .error _ => acc) = acc := by
    intro acc
    rw [applyRule_error_indep root r [] acc hfail]
  refine ⟨?_, ⟨_, rfl⟩, fun _ => rfl⟩
  unfold convertXmlToDccJson
  simp only [List.foldl_append, List.foldl_cons, hstep]

/-- Witness for C2: a throwing rule (value but no target) between two sound
rules is skipped, both neighbours still produce their values, and a parse
failure aborts. -/
theorem C2_witness :
    applyRule c2doc c2bad [] = Except.error () ∧
    convertXmlToDccJson (some c2doc) [c2good1, c2bad, c2good2] =
      convertXmlToDccJson (some c2doc) [c2good1, c2good2] ∧
    convertXmlToDccJson (some c2doc) [c2good1, c2bad, c2good2] =
      Except.ok [("a", JValue.vStr "one"), ("b", JValue.vStr "two")] ∧
    convertXmlToDccJson none [c2good1, c2bad, c2good2] =
      Except.error "XML parse error" := by
  have h := C2_failure_isolation c2doc [c2good1] [c2good2] c2bad rfl
  exact ⟨rfl, h.1, rfl, h.2.2 _⟩

/-- Strict document order between two paths sharing their first index. -/
theorem docLt_cons_same (i : Nat) {p q : NodePath} (h : docLt p q) :
    docLt (i :: p) (i :: q) :=
  Or.inr ⟨rfl, h⟩

/-- Every member of `subPathsL i ks` starts with an index in
`[i, i + ks.length)`. -/
theorem subPathsL_mem : ∀ (i : Nat) (ks : List XElem) (p : NodePath),
    p ∈ subPathsL i ks → ∃ j q, p = j :: q ∧ i ≤ j ∧ j < i + ks.length
  | i, [], p, h => absurd h (by simp [subPathsL])
  | i, k :: ks, p, h => by
    simp only [subPathsL] at h
    rcases List.mem_append.1 h with h1 | h1
    · obtain ⟨q, _, rfl⟩ := List.mem_map.1 h1
      exact ⟨i, q, rfl, Nat.le_refl i, by simp [List.length_cons]⟩
    · obtain ⟨j, q, hpq, hij, hlt⟩ := subPathsL_mem (i + 1) ks p h1
      refine ⟨j, q, hpq, by omega, ?_⟩
      simp only [List.length_cons]
      omega

mutual

/-- The preorder enumeration of a subtree is strictly sorted in document
order. -/
theorem subPaths_pairwise : ∀ e : XElem, List.Pairwise docLt (subPaths e)
  | .mk _ _ _ _ kids => by
    simp only [subPaths]
    refine List.Pairwise.cons ?_ (subPathsL_pairwise 0 kids)
    intro q hq
    obtain ⟨j, qq, rfl, _, _⟩ := subPathsL_mem 0 kids q hq
    trivial

/-- The preorder enumeration of a sibling list is strictly sorted in
document order. -/
theorem subPathsL_pairwise : ∀ (i : Nat) (ks : List XElem),
    List.Pairwise docLt (subPathsL i ks)
  | _, [] => List.Pairwise.nil
  | i, k :: ks => by
    simp only [subPathsL]
    rw [List.pairwise_append]
    refine ⟨?_, subPathsL_pairwise (i + 1) ks, ?_⟩
    · rw [List.pairwise_map]
      exact (subPaths_pairwise k).imp (fun h => docLt_cons_same i h)
    · intro a ha b hb
      obtain ⟨p, _, rfl⟩ := List.mem_map.1 ha
      obtain ⟨j, q, rfl, hij, _⟩ := subPathsL_mem (i + 1) ks b hb
      exact Or.inl (by omega)

end

/-- Every node list the path resolver returns is strictly sorted in
document order (it is a filtered preorder enumeration). -/
theorem findPaths_pairwise (root : XElem) (ctx : NodePath) (path : String) :
    List.Pairwise docLt (findPaths root ctx path) := by
  unfold findPaths
  cases evalCore root (toXPathSteps path (ctx = [])) [ctx] with
  | none => exact List.Pairwise.nil
  | some s =>
    exact List.Pairwise.sublist (List.filter_sublist _) (subPaths_pairwise root)

/-- The container loop builds exactly one object per matched container
element, the `k`-th output from the `k`-th container. -/
theorem arrLoop_ok (g : NodePath → Except Unit JObj) :
    ∀ (ps : List NodePath) (arr : List JValue), arrLoop g ps = Except.ok arr →
      arr.length = ps.length ∧
      ∀ k (hk : k < ps.length) (hk2 : k < arr.length),
        ∃ item, g (ps.get ⟨k, hk⟩) = Except.ok item ∧
          arr.get ⟨k, hk2⟩ = JValue.vObj item := by
  intro ps
  induction ps with
  | nil =>
    intro arr h
    simp only [arrLoop] at h
    cases h
    exact ⟨rfl, fun k hk => absurd hk (by simp)⟩
  | cons p rest ih =>
    intro arr h
    simp only [arrLoop] at h
    cases hg : g p with
    | error e =>
      rw [hg] at h
      simp at h
    | ok item =>
      rw [hg] at h
      cases hrest : arrLoop g rest with
      | error e =>
        rw [hrest] at h
        simp at h
      | ok others =>
        rw [hrest] at h
        simp only [] at h
        cases h
        obtain ⟨hlen, hidx⟩ := ih others hrest
        refine ⟨by simp [hlen], ?_⟩
        intro k hk hk2
        cases k with
        | zero => exact ⟨item, hg, rfl⟩
        | succ k =>
          have hk1 : k < rest.length := by
            simp only [List.length_cons] at hk
            omega
          have hk2a : k < others.length := by
            simp only [List.length_cons] at hk2
            omega
          obtain ⟨it, h1, h2⟩ := hidx k hk1 hk2a
          exact ⟨it, h1, by simpa using h2⟩

/-- **C7**: the sequence of container elements an array rule matches is in
strict document order — at any context, hence at any nesting depth — and
the produced object sequence corresponds one-to-one, in that order, to the
containers: the `k`-th output object is built from the `k`-th matched
container, and a top-level array rule stores exactly that object list
under its de-bracketed target. -/
theorem C7_array_document_order (root : XElem) :
    (∀ ctx path, List.Pairwise docLt (findPaths root ctx path)) ∧
    (∀ ps fields arr, processArr root ps fields = Except.ok arr →
      arr.length = ps.length ∧
      ∀ k (hk : k < ps.length) (hk2 : k < arr.length),
        ∃ item, processFields root fields (ps.get ⟨k, hk⟩) [] = Except.ok item ∧
          arr.get ⟨k, hk2⟩ = JValue.vObj item) ∧
    (∀ rule t res out, rule.type = "array" → rule.target = some t →
      applyRule root rule res = Except.ok out →
      ∃ arr, processArr root (findPaths root [] (rule.source.getD ""))
          (rule.fields.getD []) = Except.ok arr ∧
        out = setNested res (strSplit (replaceFirst t "[]" "") ".")
          (JValue.vArr arr)) := by
  refine ⟨fun ctx path => findPaths_pairwise root ctx path, ?_, ?_⟩
  · intro ps fields arr h
    exact arrLoop_ok (fun p => processFields root fields p []) ps arr h
  · intro rule t res out ha htg h
    unfold applyRule at h
    rw [if_pos ha, htg] at h
    cases hp : processArr root (findPaths root [] (rule.source.getD ""))
        (rule.fields.getD []) with
    | error e =>
      rw [hp] at h
      simp at h
    | ok arr =>
      rw [hp] at h
      simp only [] at h
      cases h
      exact ⟨arr, rfl, rfl⟩

/-- Witness for C7: spec scenario 3 — three `<TestPoint>` siblings with
set points 10, 20, 30 yield `results: [{setPoint:10}, {setPoint:20},
{setPoint:30}]` in exactly that order, and the matched container list is
document-ordered. -/
theorem C7_witness :
    List.Pairwise docLt (findPaths c7doc [] "TestPoint") ∧
    findPaths c7doc [] "TestPoint" = [[0], [1], [2]] ∧
    applyRule c7doc c7rule [] = Except.ok [("results", JValue.vArr
      [JValue.vObj [("setPoint", JValue.vNum (JSNum.dec 10 0))],
       JValue.vObj [("setPoint", JValue.vNum (JSNum.dec 20 0))],
       JValue.vObj [("setPoint", JValue.vNum (JSNum.dec 30 0))]])] := by
  refine ⟨(C7_array_document_order c7doc).1 [] "TestPoint", rfl, ?_⟩
  have hpf : ∀ (p : NodePath) (v : JValue), extractValue c7doc p c7sub = some v →
      processFields c7doc [c7sub] p [] = Except.ok [("setPoint", v)] := by
    intro p v hv
    rw [processFields.eq_def]
    simp only [c7sub] at hv ⊢
    simp [hv, processFields, jsKey, objSet]
  unfold applyRule
  have hfp : findPaths c7doc [] "TestPoint" = [[0], [1], [2]] := rfl
  simp only [c7rule, MRule.type, MRule.source, MRule.fields, MRule.target,
    Option.getD, hfp, reduceIte]
  simp only [processArr, arrLoop, hpf [0] _ rfl, hpf [1] _ rfl, hpf [2] _ rfl]
  rfl

/-- Writing a key and reading it back. -/
theorem objGet_objSet : ∀ (o : JObj) (k : String) (v : JValue),
    objGet (objSet o k v) k = some v
  | [], k, v => by simp [objSet, objGet]
  | (k1, v1) :: rest, k, v => by
    by_cases h : k1 = k
    · simp [objSet, objGet, h]
    · simp only [objSet, if_neg h, objGet]
      rw [List.find?_cons_of_neg _ (by simp [h])]
      exact objGet_objSet rest k v

/-- Reading a cons object: the head key, else the tail. -/
theorem objGet_cons (k' : String) (v' : JValue) (rest : JObj) (k : String) :
    objGet ((k', v') :: rest) k = if k' = k then some v' else objGet rest k := by
  unfold objGet
  by_cases h : k' = k
  · rw [if_pos h, List.find?_cons_of_pos _ (by simp [h])]
    rfl
  · rw [if_neg h, List.find?_cons_of_neg _ (by simp [h])]

/-- Writing one key leaves every other key unchanged. -/
theorem objGet_objSet_ne : ∀ (o : JObj) (k1 k2 : String) (v : JValue), k1 ≠ k2 →
    objGet (objSet o k1 v) k2 = objGet o k2
  | [], k1, k2, v, h => by
      show objGet [(k1, v)] k2 = objGet [] k2
      rw [objGet_cons, if_neg h]
  | (k', v') :: rest, k1, k2, v, h => by
      by_cases h2 : k' = k1
      · subst h2
        have hset : objSet ((k', v') :: rest) k' v = (k', v) :: rest := by
          simp [objSet]
        rw [hset, objGet_cons, objGet_cons, if_neg h, if_neg h]
      · have hset : objSet ((k', v') :: rest) k1 v = (k', v') :: objSet rest k1 v := by
          simp [objSet, h2]
        rw [hset, objGet_cons, objGet_cons]
        by_cases h3 : k' = k2
        · rw [if_pos h3, if_pos h3]
        · rw [if_neg h3, if_neg h3]
          exact objGet_objSet_ne rest k1 k2 v h

/-- `setNested` always leaves the written value readable along the same
dotted key path. -/
theorem objGetPath_setNested : ∀ (keys : List String) (o : JObj) (v : JValue),
    keys ≠ [] → objGetPath (setNested o keys v) keys = some v
  | [], _, _, h => absurd rfl h
  | [k], o, v, _ => by
    simp [setNested, objGetPath, objGet_objSet]
  | k :: r :: rs, o, v, _ => by
    simp only [setNested, objGetPath, objGet_objSet]
    exact objGetPath_setNested (r :: rs) _ v (by simp)

/-- The split of a string always has at least one part. -/
theorem splitChar_ne : ∀ (sep : List Char) (fuel : Nat) (acc cs : List Char),
    splitChar sep fuel acc cs ≠ []
  | sep, _, acc, [] => by simp [splitChar]
  | sep, 0, acc, c :: cs => by simp [splitChar]
  | sep, fuel + 1, acc, c :: cs => by
    rw [splitChar]
    by_cases h : sep.isPrefixOf (c :: cs)
    · simp [h]
    · simp only [if_neg h]
      exact splitChar_ne sep fuel (c :: acc) cs

/-- A dotted target path always has at least one key. -/
theorem strSplit_ne_nil (s sep : String) : strSplit s sep ≠ [] := by
  unfold strSplit
  intro h
  exact splitChar_ne sep.toList s.toList.length [] s.toList (List.map_eq_nil_iff.1 h)

/-- Unfolding lemma: no fields yield the empty item object. -/
theorem processFields_nil (root : XElem) (p : NodePath) (item : JObj) :
    processFields root [] p item = Except.ok item := by
  rw [processFields.eq_def]

/-- Unfolding lemma for a leading field carrying a `fields` list. -/
theorem processFields_cons_some (root : XElem) (tg : Option String)
    (ty : String) (src : Option String) (v : Option JValue)
    (ss : Option (List String)) (sep tp : Option String)
    (mp : Option (List (String × String))) (fl : List MRule) (fs : List MRule)
    (p : NodePath) (item : JObj) :
    processFields root (.mk tg ty src v ss sep tp mp (some fl) :: fs) p item =
      (if ty = "array" then
        (arrLoop (fun q => processFields root fl q [])
            (findPaths root p (src.getD ""))).bind (fun arr =>
          (jsTarget tg).bind (fun t =>
            processFields root fs p
              (objSet item (replaceFirst t "[]" "") (.vArr arr))))
      else
        match extractValue root p (.mk tg ty src v ss sep tp mp (some fl)) with
        | some w => processFields root fs p (objSet item (jsKey tg) w)
        | none => processFields root fs p item) := by
  rw [processFields.eq_def]

/-- Unfolding lemma for a leading field without a `fields` list. -/
theorem processFields_cons_none (root : XElem) (tg : Option String)
    (ty : String) (src : Option String) (v : Option JValue)
    (ss : Option (List String)) (sep tp : Option String)
    (mp : Option (List (String × String))) (fs : List MRule)
    (p : NodePath) (item : JObj) :
    processFields root (.mk tg ty src v ss sep tp mp none :: fs) p item =
      (if ty = "array" then
        (arrLoop (fun q => processFields root [] q [])
            (findPaths root p (src.getD ""))).bind (fun arr =>
          (jsTarget tg).bind (fun t =>
            processFields root fs p
              (objSet item (replaceFirst t "[]" "") (.vArr arr))))
      else
        match extractValue root p (.mk tg ty src v ss sep tp mp none) with
        | some w => processFields root fs p (objSet item (jsKey tg) w)
        | none => processFields root fs p item) := by
  rw [processFields.eq_def]

/-- Unfolding lemma: the empty field list is well-targeted. -/
theorem fieldsOk_nil : fieldsOk [] = true := by
  rw [fieldsOk.eq_def]

/-- Unfolding lemma for `fieldsOk` on a field carrying a `fields` list. -/
theorem fieldsOk_cons_some (tg : Option String) (ty : String)
    (src : Option String) (v : Option JValue) (ss : Option (List String))
    (sep tp : Option String) (mp : Option (List (String × String)))
    (fl fs : List MRule) :
    fieldsOk (.mk tg ty src v ss sep tp mp (some fl) :: fs) =
      ((if ty = "array" then tg.isSome && fieldsOk fl else true) &&
        fieldsOk fs) := by
  rw [fieldsOk.eq_def]

/-- Unfolding lemma for `fieldsOk` on a field without a `fields` list. -/
theorem fieldsOk_cons_none (tg : Option String) (ty : String)
    (src : Option String) (v : Option JValue) (ss : Option (List String))
    (sep tp : Option String) (mp : Option (List (String × String)))
    (fs : List MRule) :
    fieldsOk (.mk tg ty src v ss sep tp mp none :: fs) =
      ((if ty = "array" then tg.isSome else true) && fieldsOk fs) := by
  rw [fieldsOk.eq_def]

/-- If the per-container evaluator succeeds on every node, the loop
succeeds. -/
theorem arrLoop_all_ok (g : NodePath → Except Unit JObj) :
    ∀ ps : List NodePath, (∀ p ∈ ps, ∃ out, g p = Except.ok out) →
      ∃ arr, arrLoop g ps = Except.ok arr := by
  intro ps
  induction ps with
  | nil => exact fun _ => ⟨[], rfl⟩
  | cons p rest ih =>
    intro h
    obtain ⟨out, hout⟩ := h p (List.mem_cons_self p rest)
    obtain ⟨arr, harr⟩ := ih (fun q hq => h q (List.mem_cons_of_mem p hq))
    refine ⟨JValue.vObj out :: arr, ?_⟩
    simp only [arrLoop, hout, harr]

/-- When every `array`-typed field at every nesting depth carries a target,
`processArrayFields` never throws. -/
theorem processFields_ok (root : XElem) : ∀ (fields : List MRule),
    fieldsOk fields = true → ∀ (p : NodePath) (item : JObj),
      ∃ out, processFields root fields p item = Except.ok out
  | [], _, p, item => ⟨item, processFields_nil root p item⟩
  | .mk tg ty src v ss sep tp mp (some fl) :: fs, hok, p, item => by
    rw [fieldsOk_cons_some] at hok
    rw [processFields_cons_some]
    by_cases ha : ty = "array"
    · rw [if_pos ha] at hok ⊢
      simp only [Bool.and_eq_true] at hok
      obtain ⟨⟨htg, hfl⟩, hfs⟩ := hok
      obtain ⟨t, ht⟩ := Option.isSome_iff_exists.1 htg
      obtain ⟨arr, harr⟩ := arrLoop_all_ok (fun q => processFields root fl q [])
        (findPaths root p (src.getD ""))
        (fun q _ => processFields_ok root fl hfl q [])
      obtain ⟨out, hout⟩ :=
        processFields_ok root fs hfs p
          (objSet item (replaceFirst t "[]" "") (.vArr arr))
      exact ⟨out, by simp [harr, Except.bind, ht, jsTarget, hout]⟩
    · rw [if_neg ha] at hok ⊢
      simp only [Bool.true_and] at hok
      cases hv : extractValue root p (.mk tg ty src v ss sep tp mp (some fl)) with
      | some w => exact processFields_ok root fs hok p (objSet item (jsKey tg) w)
      | none => exact processFields_ok root fs hok p item
  | .mk tg ty src v ss sep tp mp none :: fs, hok, p, item => by
    rw [fieldsOk_cons_none] at hok
    rw [processFields_cons_none]
    by_cases ha : ty = "array"
    · rw [if_pos ha] at hok ⊢
      simp only [Bool.and_eq_true] at hok
      obtain ⟨htg, hfs⟩ := hok
      obtain ⟨t, ht⟩ := Option.isSome_iff_exists.1 htg
      obtain ⟨arr, harr⟩ := arrLoop_all_ok (fun q => processFields root [] q [])
        (findPaths root p (src.getD ""))
        (fun q _ => ⟨[], processFields_nil root q []⟩)
      obtain ⟨out, hout⟩ :=
        processFields_ok root fs hfs p
          (objSet item (replaceFirst t "[]" "") (.vArr arr))
      exact ⟨out, by simp [harr, Except.bind, ht, jsTarget, hout]⟩
    · rw [if_neg ha] at hok ⊢
      simp only [Bool.true_and] at hok
      cases hv : extractValue root p (.mk tg ty src v ss sep tp mp none) with
      | some w => exact processFields_ok root fs hok p (objSet item (jsKey tg) w)
      | none => exact processFields_ok root fs hok p item
termination_by fields => sizeOf fields
decreasing_by
  all_goals simp
  all_goals omega

/-- Processing a field list whose fields all write keys other than `k`
leaves the key `k` of the item object unchanged. -/
theorem processFields_preserve (root : XElem) :
    ∀ (fs : List MRule) (p : NodePath) (item out : JObj) (k : String),
      processFields root fs p item = Except.ok out →
      (∀ f ∈ fs, fieldKey f ≠ k) → objGet out k = objGet item k
  | [], p, item, out, k, h, _ => by
      rw [processFields_nil] at h
      cases h
      rfl
  | .mk tg ty src v ss sep tp mp (some fl) :: fs, p, item, out, k, h, hks => by
      have hk0 : fieldKey (.mk tg ty src v ss sep tp mp (some fl)) ≠ k :=
        hks _ (List.mem_cons_self _ _)
      have hkrest : ∀ f ∈ fs, fieldKey f ≠ k :=
        fun f hf => hks f (List.mem_cons_of_mem _ hf)
      rw [processFields_cons_some] at h
      by_cases ha : ty = "array"
      · rw [if_pos ha] at h
        revert h
        cases harr : arrLoop (fun q => processFields root fl q [])
            (findPaths root p (src.getD "")) with
        | error e =>
            intro h
            simp [Except.bind] at h
        | ok arr =>
            intro h
            revert h
            cases tg with
            | none =>
                intro h
                simp [Except.bind, jsTarget] at h
            | some t =>
                intro h
                simp only [Except.bind, jsTarget] at h
                have hk0t : replaceFirst t "[]" "" ≠ k := by
                  simpa [fieldKey, MRule.type, MRule.target, jsKey, ha] using hk0
                rw [processFields_preserve root fs p _ out k h hkrest]
                exact objGet_objSet_ne _ _ _ _ hk0t
      · rw [if_neg ha] at h
        have hk0s : jsKey tg ≠ k := by
          simpa [fieldKey, MRule.type, MRule.target, ha] using hk0
        revert h
        cases hev : extractValue root p (.mk tg ty src v ss sep tp mp (some fl)) with
        | some w =>
            intro h
            rw [processFields_preserve root fs p _ out k h hkrest]
            exact objGet_objSet_ne _ _ _ _ hk0s
        | none =>
            intro h
            exact processFields_preserve root fs p item out k h hkrest
  | .mk tg ty src v ss sep tp mp none :: fs, p, item, out, k, h, hks => by
      have hk0 : fieldKey (.mk tg ty src v ss sep tp mp none) ≠ k :=
        hks _ (List.mem_cons_self _ _)
      have hkrest : ∀ f ∈ fs, fieldKey f ≠ k :=
        fun f hf => hks f (List.mem_cons_of_mem _ hf)
      rw [processFields_cons_none] at h
      by_cases ha : ty = "array"
      · rw [if_pos ha] at h
        revert h
        cases harr : arrLoop (fun q => processFields root [] q [])
            (findPaths root p (src.getD "")) with
        | error e =>
            intro h
            simp [Except.bind] at h
        | ok arr =>
            intro h
            revert h
            cases tg with
            | none =>
                intro h
                simp [Except.bind, jsTarget] at h
            | some t =>
                intro h
                simp only [Except.bind, jsTarget] at h
                have hk0t : replaceFirst t "[]" "" ≠ k := by
                  simpa [fieldKey, MRule.type, MRule.target, jsKey, ha] using hk0
                rw [processFields_preserve root fs p _ out k h hkrest]
                exact objGet_objSet_ne _ _ _ _ hk0t
      · rw [if_neg ha] at h
        have hk0s : jsKey tg ≠ k := by
          simpa [fieldKey, MRule.type, MRule.target, ha] using hk0
        revert h
        cases hev : extractValue root p (.mk tg ty src v ss sep tp mp none) with
        | some w =>
            intro h
            rw [processFields_preserve root fs p _ out k h hkrest]
            exact objGet_objSet_ne _ _ _ _ hk0s
        | none =>
            intro h
            exact processFields_preserve root fs p item out k h hkrest
termination_by fs => sizeOf fs
decreasing_by
  all_goals simp
  all_goals omega

/-- **C10** (amended): an `array` rule with a target whose nested `array`
fields all carry targets never throws: it always writes its de-bracketed
dotted target with an array value — the empty array when the source path
matches zero containers — and the key is then present in the output
object; a scalar rule producing no value, in contrast, leaves the object
untouched.  The same holds at any nesting depth: a nested `array` field
carrying a target (with well-targeted sub-fields) writes its de-bracketed
key into its item object with an array value — empty on zero matched
containers — and the remaining fields of the list leave that key intact
unless one of them writes the same key.  (When a nested `array` field
lacks a target the whole rule throws and the key stays absent, and a later
colliding rule may overwrite the key.) -/
theorem C10_array_target_written (root : XElem) :
    (∀ rule t res, rule.type = "array" → rule.target = some t →
      fieldsOk (rule.fields.getD []) = true →
      ∃ arr, applyRule root rule res = Except.ok
          (setNested res (strSplit (replaceFirst t "[]" "") ".") (JValue.vArr arr)) ∧
        arr.length = (findPaths root [] (rule.source.getD "")).length ∧
        objGetPath
          (setNested res (strSplit (replaceFirst t "[]" "") ".") (JValue.vArr arr))
          (strSplit (replaceFirst t "[]" "") ".") = some (JValue.vArr arr)) ∧
    (∀ rule res, rule.type ≠ "array" → extractValue root [] rule = none →
      applyRule root rule res = Except.ok res) ∧
    (∀ (f : MRule) (fs : List MRule) (p : NodePath) (item : JObj) (t : String),
      f.type = "array" → f.target = some t →
      fieldsOk (f.fields.getD []) = true →
      ∃ arr,
        processFields root (f :: fs) p item =
          processFields root fs p
            (objSet item (replaceFirst t "[]" "") (JValue.vArr arr)) ∧
        arr.length = (findPaths root p (f.source.getD "")).length ∧
        objGet (objSet item (replaceFirst t "[]" "") (JValue.vArr arr))
          (replaceFirst t "[]" "") = some (JValue.vArr arr)) ∧
    (∀ fs p item out k, processFields root fs p item = Except.ok out →
      (∀ f ∈ fs, fieldKey f ≠ k) → objGet out k = objGet item k) := by
  refine ⟨?_, ?_, ?_, ?_⟩
  · intro rule t res ha htg hfok
    obtain ⟨arr, harr⟩ := arrLoop_all_ok
      (fun q => processFields root (rule.fields.getD []) q [])
      (findPaths root [] (rule.source.getD ""))
      (fun q _ => processFields_ok root (rule.fields.getD []) hfok q [])
    have hlen := (arrLoop_ok _ _ _ harr).1
    refine ⟨arr, ?_, hlen, objGetPath_setNested _ res _ (strSplit_ne_nil _ _)⟩
    unfold applyRule
    rw [if_pos ha]
    unfold processArr
    rw [harr, htg]
  · intro rule res ha hev
    unfold applyRule
    rw [if_neg ha, hev]
  · intro f fs p item t ha htg hfok
    cases f with
    | mk tg ty src v ss sep tp mp flo =>
        simp only [MRule.type] at ha
        simp only [MRule.target] at htg
        simp only [MRule.fields] at hfok
        subst ha
        subst htg
        cases flo with
        | some fl =>
            simp only [Option.getD] at hfok
            obtain ⟨arr, harr⟩ := arrLoop_all_ok
              (fun q => processFields root fl q [])
              (findPaths root p (src.getD ""))
              (fun q _ => processFields_ok root fl hfok q [])
            refine ⟨arr, ?_, ?_, objGet_objSet _ _ _⟩
            · rw [processFields_cons_some, if_pos rfl, harr]
              simp [Except.bind, jsTarget]
            · rw [(arrLoop_ok _ _ _ harr).1]
              simp [MRule.source]
        | none =>
            obtain ⟨arr, harr⟩ := arrLoop_all_ok
              (fun q => processFields root [] q [])
              (findPaths root p (src.getD ""))
              (fun q _ => ⟨[], processFields_nil root q []⟩)
            refine ⟨arr, ?_, ?_, objGet_objSet _ _ _⟩
            · rw [processFields_cons_none, if_pos rfl, harr]
              simp [Except.bind, jsTarget]
            · rw [(arrLoop_ok _ _ _ harr).1]
              simp [MRule.source]
  · exact fun fs p item out k h hks => processFields_preserve root fs p item out k h hks

/-- Witness for C10: a top-level `array` rule matching nothing still
writes its key, holding the empty array; and a nested `array` field with a
target matching nothing writes its de-bracketed key into its item object,
also holding the empty array. -/
theorem C10_witness :
    applyRule c7doc c10rule [] = Except.ok [("empty", JValue.vArr [])] ∧
    objGet [("empty", JValue.vArr [])] "empty" = some (JValue.vArr []) ∧
    processFields c7doc [c10nest] [0] [] = Except.ok [("sub", JValue.vArr [])] ∧
    objGet [("sub", JValue.vArr [])] "sub" = some (JValue.vArr []) := by
  have hfok : fieldsOk (c10rule.fields.getD []) = true := fieldsOk_nil
  obtain ⟨arr, happ, hlen, _⟩ :=
    (C10_array_target_written c7doc).1 c10rule "empty[]" [] rfl rfl hfok
  have hzero : arr = [] := List.length_eq_zero.1 (by rw [hlen]; rfl)
  subst hzero
  obtain ⟨arr2, hst, hlen2, -⟩ :=
    (C10_array_target_written c7doc).2.2.1 c10nest [] [0] [] "sub[]" rfl rfl
      fieldsOk_nil
  have hzero2 : arr2 = [] := List.length_eq_zero.1 (by rw [hlen2]; rfl)
  subst hzero2
  refine ⟨happ, rfl, ?_, rfl⟩
  rw [hst, processFields_nil]
  rfl

/-- C10 as stated is false on the code: an `array` rule whose nested
`array` field lacks a target throws on every application, so after the
conversion its de-bracketed target key is absent from the output object. -/
theorem C10_counterexample :
    c10bad.type = "array" ∧ c10bad.target = some "results[]" ∧
    convertXmlToDccJson (some c7doc) [c10bad] = Except.ok [] ∧
    objGet ([] : JObj) "results" = none := by
  have hnested : ∀ p : NodePath,
      processFields c7doc
        [.mk none "array" (some "Q") none none none none none none] p [] =
        Except.error () := by
    intro p
    rw [processFields_cons_none]
    simp only [reduceIte]
    obtain ⟨arr, harr⟩ := arrLoop_all_ok
      (fun q => processFields c7doc [] q []) (findPaths c7doc p "Q")
      (fun q _ => ⟨[], processFields_nil c7doc q []⟩)
    simp [harr, Except.bind, jsTarget]
  have hbad : applyRule c7doc c10bad [] = Except.error () := by
    unfold applyRule
    have hfp : findPaths c7doc [] "TestPoint" = [[0], [1], [2]] := rfl
    simp only [c10bad, MRule.type, MRule.source, MRule.fields, MRule.target,
      Option.getD, reduceIte, processArr, hfp, arrLoop, hnested]
  refine ⟨rfl, rfl, ?_, rfl⟩
  simp [convertXmlToDccJson, hbad]

/-- `erasePfxL` maps `erasePfx` over the list. -/
theorem erasePfxL_eq : ∀ ks : List XElem, erasePfxL ks = ks.map erasePfx
  | [] => rfl
  | k :: ks => by
    simp only [erasePfxL, List.map_cons]
    rw [erasePfxL_eq ks]

/-- Prefix erasure keeps the child list (up to erasure). -/
theorem kids_erase (e : XElem) : (erasePfx e).kids = erasePfxL e.kids := by
  cases e
  rfl

/-- Prefix erasure keeps the local name. -/
theorem tag_erase (e : XElem) : (erasePfx e).tag = e.tag := by
  cases e
  rfl

/-- Prefix erasure keeps the attributes. -/
theorem attrs_erase (e : XElem) : (erasePfx e).attrs = e.attrs := by
  cases e
  rfl

/-- Prefix erasure keeps attribute lookup. -/
theorem getAttr_erase (e : XElem) (n : String) :
    getAttr (erasePfx e) n = getAttr e n := by
  unfold getAttr
  rw [attrs_erase]

/-- Node lookup commutes with prefix erasure. -/
theorem getX_erase : ∀ (p : NodePath) (e : XElem),
    getX (erasePfx e) p = (getX e p).map erasePfx
  | [], _ => rfl
  | i :: p, e => by
    simp only [getX]
    rw [kids_erase, erasePfxL_eq, List.getElem?_map]
    cases e.kids[i]? with
    | none => rfl
    | some k => exact getX_erase p k

mutual

/-- Prefix erasure keeps the preorder path enumeration. -/
theorem subPaths_erase : ∀ e : XElem, subPaths (erasePfx e) = subPaths e
  | .mk _ _ _ _ kids => by
    simp only [erasePfx, subPaths]
    rw [subPathsL_erase 0 kids]

/-- Prefix erasure keeps the sibling path enumeration. -/
theorem subPathsL_erase : ∀ (i : Nat) (ks : List XElem),
    subPathsL i (erasePfxL ks) = subPathsL i ks
  | _, [] => rfl
  | i, k :: ks => by
    simp only [erasePfxL, subPathsL]
    rw [subPaths_erase k, subPathsL_erase (i + 1) ks]

end

/-- Local-name matching ignores the prefix. -/
theorem tagIs_erase (root : XElem) (p : NodePath) (n : String) :
    tagIs (erasePfx root) p n = tagIs root p n := by
  unfold tagIs
  rw [getX_erase]
  cases getX root p with
  | none => rfl
  | some e => simp [tag_erase]

/-- Attribute predicates ignore the prefix. -/
theorem predSat_erase (root : XElem) (p : NodePath) (av : String × String) :
    predSat (erasePfx root) p av = predSat root p av := by
  unfold predSat
  rw [getX_erase]
  cases getX root p with
  | none => rfl
  | some e => simp [getAttr_erase]

/-- The child node list ignores the prefix. -/
theorem childList_erase (root : XElem) (n : NodePath) :
    childList (erasePfx root) n = childList root n := by
  unfold childList
  rw [getX_erase]
  cases getX root n with
  | none => rfl
  | some e => simp [kids_erase, erasePfxL_eq]

/-- The descendant-or-self node list ignores the prefix. -/
theorem descList_erase (root : XElem) (n : NodePath) :
    descList (erasePfx root) n = descList root n := by
  unfold descList
  rw [getX_erase]
  cases getX root n with
  | none => rfl
  | some e => simp [subPaths_erase]

/-- Spec-segment matching ignores the prefix: it reads only local names
and attributes. -/
theorem segMatches_erase (root : XElem) (p : NodePath) (s : Seg) :
    segMatches (erasePfx root) p s = segMatches root p s := by
  unfold segMatches
  rw [tagIs_erase]
  cases s.2 with
  | none => rfl
  | some av => simp [predSat_erase]

/-- Node-set normalization ignores the prefix. -/
theorem normalize_erase (root : XElem) (s : List NodePath) :
    normalize (erasePfx root) s = normalize root s := by
  unfold normalize
  rw [subPaths_erase]

/-- Plain-path resolution ignores the prefix: every comparison it makes is
on local names and attributes.  (Full `findPaths` is *not*
prefix-invariant: a verbatim child-element-name predicate reads the
namespace.) -/
theorem specResolve_erase (root : XElem) (ctx : NodePath) (segs : List Seg) :
    specResolve (erasePfx root) ctx segs = specResolve root ctx segs := by
  unfold specResolve
  cases segs with
  | nil => rfl
  | cons s0 rest =>
      simp only [childList_erase, descList_erase, segMatches_erase, normalize_erase]

/-- A successful `mapM` has a successful component at every member. -/
theorem mapM_parseSeg_mem : ∀ (ss : List String) (segs : List Seg),
    ss.mapM parseSeg = some segs → ∀ s ∈ ss, ∃ sg, parseSeg s = some sg
  | [], _, _, s, hs => absurd hs (List.not_mem_nil s)
  | s0 :: ss, segs, h, s, hs => by
    rw [List.mapM_cons] at h
    cases hp : parseSeg s0 with
    | none => rw [hp] at h; simp at h
    | some sg0 =>
      rw [hp] at h
      cases hrest : ss.mapM parseSeg with
      | none => rw [hrest] at h; simp at h
      | some rest =>
        rcases List.mem_cons.1 hs with rfl | hs2
        · exact ⟨sg0, hp⟩
        · exact mapM_parseSeg_mem ss rest hrest s hs2

/-- Shape of a successfully parsed plain segment: its name is the part
before `[`, and the predicate part is either empty or exactly one
attribute-equality predicate. -/
theorem parseSeg_shape (s : String) (sg : Seg) (h : parseSeg s = some sg) :
    sg.1 = segName s ∧
    ((segPred s = "" ∧ sg.2 = none) ∨
      (∃ av, sg.2 = some av ∧ parseAttrPred (segPred s) = some av)) ∧
    ¬(s = "" ∨ s = "." ∨ s = ".." ∨ strStartsWith s "@" = true ∨
      strStartsWith s "[" = true) := by
  unfold parseSeg at h
  by_cases hg : s = "" ∨ s = "." ∨ s = ".." ∨ strStartsWith s "@" = true ∨
      strStartsWith s "[" = true
  · rw [if_pos hg] at h
    cases h
  · rw [if_neg hg] at h
    by_cases hp : String.mk (s.toList.dropWhile (fun c => c ≠ '[')) = ""
    · rw [if_pos hp] at h
      cases h
      exact ⟨rfl, Or.inl ⟨hp, rfl⟩, hg⟩
    · rw [if_neg hp] at h
      cases hpa : parseAttrPred (String.mk (s.toList.dropWhile (fun c => c ≠ '['))) with
      | none =>
        rw [hpa] at h
        cases h
      | some av =>
        rw [hpa] at h
        cases h
        exact ⟨rfl, Or.inr ⟨av, rfl, hpa⟩, hg⟩

/-- `stepToX` on a plain element segment: a descendant-or-self step for the
first segment of a from-root path, a direct-child step otherwise. -/
theorem stepToX_plain (fr : Bool) (i : Nat) (s : String) (sg : Seg)
    (h : parseSeg s = some sg) :
    stepToX fr i s = some (if i = 0 ∧ fr = true then
        XStep.desc (segName s) (segPred s)
      else XStep.child (segName s) (segPred s)) := by
  have hg := (parseSeg_shape s sg h).2.2
  push_neg at hg
  obtain ⟨h1, h2, h3, h4, h5⟩ := hg
  unfold stepToX
  rw [if_neg (by simp [h1]), if_neg h3, if_neg h2, if_neg (by simp [h4]),
    if_neg (by simp [h1, h5])]
  by_cases hi : i = 0 ∧ fr = true
  · rw [if_pos ⟨hi.1, by simp [hi.2]⟩, if_pos hi]
    rfl
  · have : ¬(i = 0 ∧ fr) := by
      intro hc
      exact hi ⟨hc.1, by simpa using hc.2⟩
    rw [if_neg this, if_neg hi]
    rfl

/-- `filterMap` over pointwise-successful elements is a `map`. -/
theorem filterMap_eq_map_of {α β : Type} (l : List α) (f : α → Option β)
    (g : α → β) (h : ∀ x ∈ l, f x = some (g x)) : l.filterMap f = l.map g := by
  induction l with
  | nil => rfl
  | cons x xs ih =>
    rw [List.filterMap_cons, h x (List.mem_cons_self x xs), List.map_cons,
      ih (fun y hy => h y (List.mem_cons_of_mem x hy))]

/-- From index 1 on, every plain segment becomes a direct-child step. -/
theorem filterMap_stepToX_enumFrom (fr : Bool) :
    ∀ (k : Nat), 0 < k → ∀ (ss : List String),
      (∀ s ∈ ss, ∃ sg, parseSeg s = some sg) →
      (ss.enumFrom k).filterMap (fun is => stepToX fr is.1 is.2) =
        ss.map (fun s => XStep.child (segName s) (segPred s)) := by
  intro k hk ss
  induction ss generalizing k with
  | nil => intro _; rfl
  | cons s ss ih =>
    intro h
    obtain ⟨sg, hsg⟩ := h s (List.mem_cons_self s ss)
    rw [List.enumFrom_cons, List.filterMap_cons,
      stepToX_plain fr k s sg hsg, if_neg (by omega), List.map_cons,
      ih (k + 1) (by omega) (fun y hy => h y (List.mem_cons_of_mem s hy))]

/-- `mapM` of a pointwise-successful function is the `map` of its values. -/
theorem mapM_of_forall_some (f : NodePath → Option (List NodePath))
    (g : NodePath → List NodePath) (h : ∀ n, f n = some (g n)) :
    ∀ ns : List NodePath, ns.mapM f = some (ns.map g) := by
  intro ns
  induction ns with
  | nil => rfl
  | cons n ns ih =>
    rw [List.mapM_cons, h n]
    have ih2 : List.mapM.loop f ns [] = some (List.map g ns) := ih
    simp [ih2]

/-- A direct-child step on a parsed plain segment selects exactly the
children matching the segment. -/
theorem evalStep_child_eq (root : XElem) (s : String) (sg : Seg)
    (h : parseSeg s = some sg) (m : NodePath) :
    evalStep root (XStep.child (segName s) (segPred s)) m =
      some ((childList root m).filter (fun p => segMatches root p sg)) := by
  obtain ⟨hn, hp, -⟩ := parseSeg_shape s sg h
  obtain ⟨n2, o2⟩ := sg
  simp only at hn
  subst hn
  rcases hp with ⟨hpe, ho⟩ | ⟨av, ho, hpa⟩ <;> simp only at ho <;> subst ho
  · simp only [evalStep, filterPred, if_pos hpe]
    refine congrArg some (List.filter_congr ?_)
    intro p _
    simp [segMatches]
  · have hpe : segPred s ≠ "" := by
      intro hc
      rw [hc] at hpa
      simp [parseAttrPred, strStartsWith] at hpa
    simp only [evalStep, filterPred, if_neg hpe, hpa, List.filter_filter]
    refine congrArg some (List.filter_congr ?_)
    intro p _
    simp [segMatches, Bool.and_comm]

/-- A descendant-or-self step on a parsed plain segment selects exactly the
descendants-or-self matching the segment. -/
theorem evalStep_desc_eq (root : XElem) (s : String) (sg : Seg)
    (h : parseSeg s = some sg) (m : NodePath) :
    evalStep root (XStep.desc (segName s) (segPred s)) m =
      some ((descList root m).filter (fun p => segMatches root p sg)) := by
  obtain ⟨hn, hp, -⟩ := parseSeg_shape s sg h
  obtain ⟨n2, o2⟩ := sg
  simp only at hn
  subst hn
  rcases hp with ⟨hpe, ho⟩ | ⟨av, ho, hpa⟩ <;> simp only at ho <;> subst ho
  · simp only [evalStep, filterPred, if_pos hpe]
    refine congrArg some (List.filter_congr ?_)
    intro p _
    simp [segMatches]
  · have hpe : segPred s ≠ "" := by
      intro hc
      rw [hc] at hpa
      simp [parseAttrPred, strStartsWith] at hpa
    simp only [evalStep, filterPred, if_neg hpe, hpa, List.filter_filter]
    refine congrArg some (List.filter_congr ?_)
    intro p _
    simp [segMatches, Bool.and_comm]

/-- Evaluating the child steps of a parsed plain path equals the spec's
child-per-segment fold. -/
theorem evalCore_child_fold (root : XElem) :
    ∀ (ss : List String) (segs : List Seg), ss.mapM parseSeg = some segs →
    ∀ ns, evalCore root
        (ss.map (fun s => XStep.child (segName s) (segPred s))) ns =
      some (segs.foldl (fun ac sg =>
        (ac.map (fun n => (childList root n).filter
          (fun p => segMatches root p sg))).flatten) ns)
  | [], segs, h, ns => by
    cases h
    rfl
  | s :: ss, segs, h, ns => by
    rw [List.mapM_cons] at h
    cases hp : parseSeg s with
    | none => rw [hp] at h; simp at h
    | some sg =>
      rw [hp] at h
      cases hrest : ss.mapM parseSeg with
      | none => rw [hrest] at h; simp at h
      | some rest =>
        rw [hrest] at h
        have hsegs : segs = sg :: rest := by
          simp at h
          exact h.symm
        subst hsegs
        simp only [List.map_cons, evalCore]
        rw [mapM_of_forall_some _ _ (evalStep_child_eq root s sg hp) ns]
        simp only [Option.bind_eq_bind, Option.some_bind]
        rw [evalCore_child_fold root ss rest hrest]
        rw [List.foldl_cons]

/-- The resolver agrees with the spec's wording on every plain element
path: descendant-or-self search for the first segment of a from-root
evaluation, direct children afterwards, local names only. -/
theorem findPaths_spec (root : XElem) (ctx : NodePath) (path : String)
    (segs : List Seg) (h : parsePlainPath path = some segs) :
    findPaths root ctx path = specResolve root ctx segs := by
  unfold parsePlainPath at h
  by_cases hg : path = "" ∨ path = "."
  · rw [if_pos hg] at h
    cases h
  · rw [if_neg hg] at h
    cases hss : strSplit path "/" with
    | nil => exact absurd hss (strSplit_ne_nil path "/")
    | cons s0 ss =>
      rw [hss, List.mapM_cons] at h
      cases hp0 : parseSeg s0 with
      | none => rw [hp0] at h; simp at h
      | some sg0 =>
        rw [hp0] at h
        cases hrest : ss.mapM parseSeg with
        | none => rw [hrest] at h; simp at h
        | some rest =>
          rw [hrest] at h
          have hsegs : segs = sg0 :: rest := by
            simp at h
            exact h.symm
          subst hsegs
          have hmem : ∀ s ∈ ss, ∃ sg, parseSeg s = some sg :=
            mapM_parseSeg_mem ss rest hrest
          have hsteps : ∀ fr : Bool, toXPathSteps path fr =
              (if fr = true then XStep.desc (segName s0) (segPred s0)
                else XStep.child (segName s0) (segPred s0)) ::
              ss.map (fun s => XStep.child (segName s) (segPred s)) := by
            intro fr
            unfold toXPathSteps
            rw [if_neg hg, hss]
            rw [show (s0 :: ss).enum = (0, s0) :: ss.enumFrom 1 from rfl]
            rw [List.filterMap_cons, stepToX_plain fr 0 s0 sg0 hp0,
              filterMap_stepToX_enumFrom fr 1 (by omega) ss hmem]
            by_cases hfr : fr = true
            · simp [hfr]
            · simp [hfr]
          unfold findPaths specResolve
          by_cases hctx : ctx = []
          · subst hctx
            rw [hsteps]
            simp only [decide_True, eq_self_iff_true, if_true]
            simp only [evalCore]
            rw [mapM_of_forall_some _ _ (evalStep_desc_eq root s0 sg0 hp0) [[]]]
            simp only [Option.bind_eq_bind, Option.some_bind, List.map_cons,
              List.map_nil, List.flatten_cons, List.flatten_nil,
              List.append_nil]
            rw [evalCore_child_fold root ss rest hrest]
          · rw [hsteps]
            have hd : decide (ctx = []) = false := by
              simp [hctx]
            rw [hd]
            simp only [Bool.false_eq_true, if_false, if_neg hctx]
            simp only [evalCore]
            rw [mapM_of_forall_some _ _ (evalStep_child_eq root s0 sg0 hp0) [ctx]]
            simp only [Option.bind_eq_bind, Option.some_bind, List.map_cons,
              List.map_nil, List.flatten_cons, List.flatten_nil,
              List.append_nil]
            rw [evalCore_child_fold root ss rest hrest]

/-- **C3** (amended): on plain element paths — slash-separated segments
that are a local name, optionally with an `[@attr='value']` predicate —
resolution is namespace-agnostic and treats segments as the spec words it:
for any two source documents differing only in namespace prefixes, every
plain path resolves to the same node list, and the resolver equals the
spec-side `specResolve` (first segment of a from-root evaluation a
descendant-or-self search by local name, every subsequent segment — and
the first segment at a non-root context — a direct-child match by local
name).  The restriction to plain paths is necessary: bracketed predicates
are preserved verbatim into the evaluated XPath, and a child-element name
test inside one is evaluated against the null namespace, which is
namespace-sensitive. -/
theorem C3_namespace_agnostic_resolution (d1 d2 : XElem)
    (hpe : erasePfx d1 = erasePfx d2) :
    ∀ ctx path segs, parsePlainPath path = some segs →
      findPaths d1 ctx path = specResolve d1 ctx segs ∧
      findPaths d1 ctx path = findPaths d2 ctx path := by
  intro ctx path segs h
  have h1 := findPaths_spec d1 ctx path segs h
  have h2 := findPaths_spec d2 ctx path segs h
  refine ⟨h1, ?_⟩
  rw [h1, h2, ← specResolve_erase d1 ctx segs, ← specResolve_erase d2 ctx segs, hpe]

/-- Witness for C3: the prefixed and unprefixed documents resolve the
plain path `Cal/TestPoint` identically and per the spec-side semantics;
the first-segment search is descendant-or-self from the root (`SetPoint`
from the root finds all three grandchildren) but direct-child elsewhere
(`SetPoint` from the first `TestPoint` finds only its own). -/
theorem C3_witness :
    parsePlainPath "Cal/TestPoint" = some [("Cal", none), ("TestPoint", none)] ∧
    findPaths c7doc [] "Cal/TestPoint" =
      specResolve c7doc [] [("Cal", none), ("TestPoint", none)] ∧
    findPaths c7doc [] "Cal/TestPoint" = [[0], [1], [2]] ∧
    findPaths c3docP [] "Cal/TestPoint" = findPaths c7doc [] "Cal/TestPoint" ∧
    findPaths c7doc [] "SetPoint" = [[0, 0], [1, 0], [2, 0]] ∧
    findPaths c7doc [0] "SetPoint" = [[0, 0]] := by
  have h := C3_namespace_agnostic_resolution c3docP c7doc rfl []
    "Cal/TestPoint" [("Cal", none), ("TestPoint", none)] rfl
  have h2 := C3_namespace_agnostic_resolution c7doc c7doc rfl []
    "Cal/TestPoint" [("Cal", none), ("TestPoint", none)] rfl
  exact ⟨rfl, h2.1, rfl, h.2, rfl, rfl⟩

/-- C3 as stated is false on the code: the path `Item[Sub]` carries a
verbatim-preserved predicate whose unprefixed name test `Sub` is evaluated
against the null namespace, so it selects the `Item` element in the
unprefixed document but nothing in its prefixed twin — resolution is not
namespace-agnostic on predicated paths. -/
theorem C3_counterexample :
    erasePfx c3predDocP = erasePfx c3predDoc ∧
    findPaths c3predDoc [] "Item[Sub]" = [[0]] ∧
    findPaths c3predDocP [] "Item[Sub]" = [] :=
  ⟨rfl, rfl, rfl⟩

/-! ### Generator: escaping and checker lemmas -/

theorem okC_all_escChar (c : Char) : (escChar c).all okC = true := by
  unfold escChar
  split_ifs with h1 h2 h3 h4
  · decide
  · decide
  · decide
  · decide
  · simp only [List.all_cons, List.all_nil, Bool.and_true, okC, Bool.and_eq_true,
      bne_iff_ne, ne_eq]
    exact ⟨by simpa using h2, by simpa using h4⟩

theorem okC_all_escL : ∀ l : List Char, (escL l).all okC = true
  | [] => rfl
  | c :: cs => by
      simp only [escL, List.all_append, okC_all_escChar, okC_all_escL cs, Bool.and_self]

/-- Escaped text never contains `<` or `"`. -/
theorem attrOk_esc (s : String) : attrOk (esc s) = true :=
  okC_all_escL s.toList

theorem textOk_of_attrOk (s : String) (h : attrOk s = true) : textOk s = true := by
  unfold attrOk at h
  unfold textOk
  rw [List.all_eq_true] at h ⊢
  intro c hc
  have h2 := h c hc
  unfold okC at h2
  rw [Bool.and_eq_true] at h2
  exact h2.1

theorem textOk_esc (s : String) : textOk (esc s) = true :=
  textOk_of_attrOk _ (attrOk_esc s)

theorem attrOk_escO (o : Option String) : attrOk (escO o) = true := by
  cases o with
  | none => rfl
  | some s => exact attrOk_esc s

theorem textOk_escO (o : Option String) : textOk (escO o) = true :=
  textOk_of_attrOk _ (attrOk_escO o)

theorem strToList_append (a b : String) : (a ++ b).toList = a.toList ++ b.toList := by
  cases a
  cases b
  rfl

theorem textOk_append (a b : String) : textOk (a ++ b) = (textOk a && textOk b) := by
  unfold textOk
  rw [strToList_append, List.all_append]

theorem attrOk_append (a b : String) : attrOk (a ++ b) = (attrOk a && attrOk b) := by
  unfold attrOk
  rw [strToList_append, List.all_append]

theorem okC_digitChar (d : Nat) : okC (digitChar d) = true := by
  unfold digitChar
  split
  · decide
  · decide
  · decide
  · decide
  · decide
  · decide
  · decide
  · decide
  · decide
  · decide

theorem okC_all_natChars : ∀ (fuel n : Nat), (natChars fuel n).all okC = true
  | 0, _ => rfl
  | fuel + 1, n => by
      simp only [natChars]
      split
      · simp only [List.all_cons, okC_digitChar, List.all_nil, Bool.and_self]
      · simp only [List.all_append, okC_all_natChars fuel (n / 10), List.all_cons,
          okC_digitChar, List.all_nil, Bool.and_self]

theorem attrOk_natStr (n : Nat) : attrOk (natStr n) = true :=
  okC_all_natChars (n + 1) n

theorem attrOk_intStr (i : Int) : attrOk (intStr i) = true := by
  unfold intStr
  split_ifs
  · rw [attrOk_append, attrOk_natStr]
    decide
  · exact attrOk_natStr _

/-- Rendered numbers never contain `<` or `"`. -/
theorem attrOk_jsNum (v : JSNum) : attrOk (jsNumToStr v) = true := by
  cases v with
  | nan => decide
  | inf b => cases b <;> decide
  | dec m e =>
      unfold jsNumToStr
      rw [attrOk_append, attrOk_intStr]
      split_ifs
      · decide
      · rw [attrOk_append, attrOk_intStr]
        decide

theorem textOk_jsNum (v : JSNum) : textOk (jsNumToStr v) = true :=
  textOk_of_attrOk _ (attrOk_jsNum v)

/-- Stack behaviour of the checker over concatenation. -/
theorem chk_append (a b : List XLine) (st : List String) :
    chk (a ++ b) st = (chk a st).bind (fun st2 => chk b st2) := by
  induction a generalizing st with
  | nil => rfl
  | cons l ls ih =>
      simp only [List.cons_append, chk]
      cases chkLine l st with
      | none => rfl
      | some st2 => exact ih st2

/-- A list of lines is neutral when it leaves any checker stack unchanged:
the well-formedness invariant of every balanced block. -/
def Neutral (ls : List XLine) : Prop :=
  ∀ st : List String, chk ls st = some st

theorem neutral_nil : Neutral [] := fun _ => rfl

theorem neutral_append {a b : List XLine} (ha : Neutral a) (hb : Neutral b) :
    Neutral (a ++ b) := by
  intro st
  rw [chk_append, ha st]
  exact hb st

theorem neutral_ite (c : Prop) [Decidable c] {a b : List XLine}
    (ha : Neutral a) (hb : Neutral b) : Neutral (if c then a else b) := by
  by_cases h : c
  · rw [if_pos h]; exact ha
  · rw [if_neg h]; exact hb

theorem neutral_t (lvl : Nat) (n txt : String) (h : textOk txt = true) :
    Neutral [XLine.t lvl n txt] := by
  intro st
  simp [chk, chkLine, h]

theorem neutral_ta (lvl : Nat) (n : String) (attrs : List (String × String)) (txt : String)
    (h1 : attrsOk attrs = true) (h2 : textOk txt = true) :
    Neutral [XLine.ta lvl n attrs txt] := by
  intro st
  simp [chk, chkLine, h1, h2]

theorem neutral_sc (lvl : Nat) (n : String) : Neutral [XLine.sc lvl n] := by
  intro st
  rfl

theorem neutral_blk (lvl : Nat) (n : String) (mid : List XLine) (h : Neutral mid) :
    Neutral (blk lvl n mid) := by
  intro st
  show chk (XLine.o lvl n :: (mid ++ [XLine.c lvl n])) st = some st
  simp only [chk, chkLine]
  rw [chk_append, h (n :: st)]
  simp [chk, chkLine]

theorem neutral_blkA (lvl : Nat) (n : String) (attrs : List (String × String))
    (mid : List XLine) (h1 : attrsOk attrs = true) (h : Neutral mid) :
    Neutral (blkA lvl n attrs mid) := by
  intro st
  show chk (XLine.oa lvl n attrs :: (mid ++ [XLine.c lvl n])) st = some st
  simp only [chk, chkLine, h1, if_true]
  rw [chk_append, h (n :: st)]
  simp [chk, chkLine]

theorem neutral_flatten {α : Type} (f : α → List XLine) :
    ∀ xs : List α, (∀ x ∈ xs, Neutral (f x)) → Neutral ((xs.map f).flatten)
  | [], _ => neutral_nil
  | x :: xs, h => by
      simp only [List.map_cons, List.flatten_cons]
      exact neutral_append (h x (List.mem_cons_self x xs))
        (neutral_flatten f xs (fun y hy => h y (List.mem_cons_of_mem x hy)))

theorem neutral_optLines {α : Type} (o : Option α) (f : α → List XLine)
    (h : ∀ v, Neutral (f v)) : Neutral (optLines o f) := by
  cases o with
  | none => exact neutral_nil
  | some v => exact h v

theorem textOk_lit_append (a b : String) (ha : textOk a = true) (hb : textOk b = true) :
    textOk (a ++ b) = true := by
  rw [textOk_append, ha, hb]
  exact rfl

theorem attrsOk_lang (lang : String) : attrsOk [("lang", esc lang)] = true := by
  simp [attrsOk, attrOk_esc]

/-! ### Generator: per-block neutrality -/

theorem neutral_dccSoftware : Neutral dccSoftwareLines := fun _ => rfl

theorem neutral_identBlock (issuer value deName enName : String)
    (hv : textOk value = true) (hi : textOk issuer = true)
    (hd : textOk deName = true) (he : textOk enName = true) :
    Neutral (identBlock issuer value deName enName) := by
  unfold identBlock
  repeat' first
    | apply neutral_blk
    | apply neutral_blkA
    | apply neutral_append
    | apply neutral_ite
    | apply neutral_ta
    | apply neutral_t
    | exact neutral_sc _ _
    | exact neutral_nil
  all_goals first
    | exact hv
    | exact hi
    | exact hd
    | exact he
    | decide

theorem neutral_coreData (cd : Option CoreData) (lang country : String) :
    Neutral (coreDataLines cd lang country) := by
  unfold coreDataLines orderIdent
  repeat' first
    | apply neutral_blk
    | apply neutral_blkA
    | apply neutral_append
    | apply neutral_ite
    | apply neutral_ta
    | apply neutral_t
    | exact neutral_sc _ _
    | exact neutral_nil
  all_goals first
    | exact textOk_esc _
    | exact textOk_escO _
    | decide

set_option maxHeartbeats 3200000 in
theorem neutral_itemLines (lang : String) (it : DccItem) :
    Neutral (itemLines lang it) := by
  unfold itemLines
  repeat' first
    | apply neutral_blk
    | apply neutral_blkA
    | apply neutral_append
    | apply neutral_ite
    | apply neutral_ta
    | apply neutral_t
    | exact neutral_sc _ _
    | exact neutral_nil
    | exact neutral_identBlock _ _ _ _ (textOk_escO _) (by decide) (by decide) (by decide)
  all_goals first
    | exact attrsOk_lang _
    | exact textOk_esc _
    | exact textOk_escO _
    | decide

set_option maxHeartbeats 3200000 in
theorem neutral_accLines (lang : String) (acc : Accessory) :
    Neutral (accLines lang acc) := by
  unfold accLines
  repeat' first
    | apply neutral_blk
    | apply neutral_blkA
    | apply neutral_append
    | apply neutral_ite
    | apply neutral_ta
    | apply neutral_t
    | exact neutral_sc _ _
    | exact neutral_nil
    | exact neutral_identBlock _ _ _ _ (textOk_escO _) (by decide) (by decide) (by decide)
    | exact neutral_identBlock _ _ _ _ (textOk_esc _) (by decide) (by decide) (by decide)
  all_goals first
    | exact attrsOk_lang _
    | exact textOk_esc _
    | exact textOk_escO _
    | exact textOk_lit_append _ _ (by decide) (textOk_escO _)
    | decide

set_option maxHeartbeats 3200000 in
theorem neutral_labLines (lang country : String) (lab : Lab) :
    Neutral (labLines lang country lab) := by
  unfold labLines
  repeat' first
    | apply neutral_blk
    | apply neutral_blkA
    | apply neutral_append
    | apply neutral_ite
    | apply neutral_ta
    | apply neutral_t
    | exact neutral_sc _ _
    | exact neutral_nil
  all_goals first
    | exact attrsOk_lang _
    | exact textOk_esc _
    | exact textOk_escO _
    | decide

theorem neutral_personLines (lang : String) (p : Person) :
    Neutral (personLines lang p) := by
  unfold personLines
  repeat' first
    | apply neutral_blk
    | apply neutral_blkA
    | apply neutral_append
    | apply neutral_ite
    | apply neutral_ta
    | apply neutral_t
    | exact neutral_sc _ _
    | exact neutral_nil
  all_goals first
    | exact attrsOk_lang _
    | exact textOk_esc _
    | exact textOk_escO _
    | decide

theorem neutral_respLines (lang : String) (persons : List Person) :
    Neutral (respLines lang persons) := by
  unfold respLines
  repeat' first
    | exact neutral_flatten _ _ (fun p _ => neutral_personLines lang p)
    | apply neutral_blk
    | apply neutral_blkA
    | apply neutral_append
    | apply neutral_ite
    | apply neutral_ta
    | apply neutral_t
    | exact neutral_sc _ _
    | exact neutral_nil
  all_goals first
    | exact attrsOk_lang _
    | exact textOk_esc _
    | exact textOk_escO _
    | decide

set_option maxHeartbeats 3200000 in
theorem neutral_customerLines (lang country : String) (cu : Customer) :
    Neutral (customerLines lang country cu) := by
  unfold customerLines
  repeat' first
    | apply neutral_blk
    | apply neutral_blkA
    | apply neutral_append
    | apply neutral_ite
    | apply neutral_ta
    | apply neutral_t
    | exact neutral_sc _ _
    | exact neutral_nil
  all_goals first
    | exact attrsOk_lang _
    | exact textOk_esc _
    | exact textOk_escO _
    | exact textOk_lit_append _ _ (by decide) (textOk_escO _)
    | decide

theorem neutral_stmtLines (lang : String) (st : Stmt) :
    Neutral (stmtLines lang st) := by
  unfold stmtLines
  repeat' first
    | apply neutral_blk
    | apply neutral_blkA
    | apply neutral_append
    | apply neutral_ite
    | apply neutral_ta
    | apply neutral_t
    | exact neutral_sc _ _
    | exact neutral_nil
  all_goals first
    | exact attrsOk_lang _
    | exact textOk_esc _
    | exact textOk_escO _
    | decide

theorem neutral_statementsLines (lang : String) (sts : List Stmt) (remarks : Option String) :
    Neutral (statementsLines lang sts remarks) := by
  unfold statementsLines
  repeat' first
    | exact neutral_flatten _ _ (fun st _ => neutral_stmtLines lang st)
    | apply neutral_blk
    | apply neutral_blkA
    | apply neutral_append
    | apply neutral_ite
    | apply neutral_ta
    | apply neutral_t
    | exact neutral_sc _ _
    | exact neutral_nil
  all_goals first
    | exact attrsOk_lang _
    | exact textOk_esc _
    | exact textOk_escO _
    | decide

set_option maxHeartbeats 3200000 in
theorem neutral_equipLines (lang : String) (eq : Equip) :
    Neutral (equipLines lang eq) := by
  unfold equipLines
  repeat' first
    | apply neutral_blk
    | apply neutral_blkA
    | apply neutral_append
    | apply neutral_ite
    | apply neutral_ta
    | apply neutral_t
    | exact neutral_sc _ _
    | exact neutral_nil
    | exact neutral_identBlock _ _ _ _ (textOk_escO _) (by decide) (by decide) (by decide)
  all_goals first
    | exact attrsOk_lang _
    | exact textOk_esc _
    | exact textOk_escO _
    | decide

theorem neutral_equipmentsLines (lang : String) (eqs : List Equip) :
    Neutral (equipmentsLines lang eqs) := by
  unfold equipmentsLines
  repeat' first
    | exact neutral_flatten _ _ (fun e _ => neutral_equipLines lang e)
    | apply neutral_blk
    | apply neutral_append
    | apply neutral_ite
    | exact neutral_nil

theorem neutral_methodLines (lang : String) (m : UsedMethod) :
    Neutral (methodLines lang m) := by
  unfold methodLines
  repeat' first
    | apply neutral_blk
    | apply neutral_blkA
    | apply neutral_append
    | apply neutral_ite
    | apply neutral_ta
    | apply neutral_t
    | exact neutral_sc _ _
    | exact neutral_nil
  all_goals first
    | exact attrsOk_lang _
    | exact textOk_esc _
    | exact textOk_escO _
    | decide

set_option maxHeartbeats 3200000 in
theorem neutral_condData (cond : InflCond) : Neutral (condData cond) := by
  unfold condData
  cases cond.min <;> cases cond.max <;> cases cond.value <;>
    (repeat' first
      | apply neutral_blk
      | apply neutral_blkA
      | apply neutral_append
      | apply neutral_ite
      | (apply neutral_optLines; intro u)
      | apply neutral_ta
      | apply neutral_t
      | exact neutral_sc _ _
      | exact neutral_nil) <;>
    (first
      | exact textOk_esc _
      | exact textOk_jsNum _
      | decide)

theorem neutral_condLines (lang : String) (cond : InflCond) :
    Neutral (condLines lang cond) := by
  unfold condLines
  repeat' first
    | exact neutral_condData _
    | apply neutral_blk
    | apply neutral_append
    | apply neutral_ta
  all_goals first
    | exact attrsOk_lang _
    | exact textOk_escO _

theorem neutral_quantBlock (refType deName enName valStr unitStr : String)
    (hv : textOk valStr = true) (hu : textOk unitStr = true)
    (hr : attrOk refType = true)
    (hd : textOk deName = true) (he : textOk enName = true) :
    Neutral (quantBlock refType deName enName valStr unitStr) := by
  unfold quantBlock
  repeat' first
    | apply neutral_blk
    | apply neutral_blkA
    | apply neutral_append
    | apply neutral_ta
    | apply neutral_t
  all_goals first
    | exact hv
    | exact hu
    | exact hd
    | exact he
    | decide
    | simp [attrsOk, hr]

theorem cleanTol_or (a b : Option NumOrStr)
    (ha : cleanTol a = true) (hb : cleanTol b = true) :
    cleanTol (a.or b) = true := by
  cases a with
  | some x => exact ha
  | none => exact hb

theorem neutral_tolSeg (unitStr : String) (o : Option NumOrStr)
    (hu : textOk unitStr = true) (hcl : cleanTol o = true) :
    Neutral (tolSeg unitStr o) := by
  cases o with
  | none => exact neutral_nil
  | some tv =>
      have hlow : textOk (tolLower tv) = true := by
        cases tv with
        | num v => exact textOk_jsNum _
        | str s => exact hcl
      have hup : textOk (tolUpper tv) = true := by
        cases tv with
        | num v => exact textOk_jsNum _
        | str s => exact hcl
      show Neutral (quantBlock _ _ _ _ _ ++ quantBlock _ _ _ _ _)
      exact neutral_append
        (neutral_quantBlock _ _ _ _ _ hlow hu (by decide) (by decide) (by decide))
        (neutral_quantBlock _ _ _ _ _ hup hu (by decide) (by decide) (by decide))

set_option maxHeartbeats 3200000 in
theorem neutral_pointLines (lang : String) (r : RPoint) (hcl : cleanPoint r = true) :
    Neutral (pointLines lang r) := by
  have hcl2 := hcl
  unfold cleanPoint at hcl2
  rw [Bool.and_eq_true] at hcl2
  unfold pointLines
  repeat' first
    | exact neutral_tolSeg _ _ (textOk_esc _) (cleanTol_or _ _ hcl2.1 hcl2.2)
    | exact neutral_quantBlock _ _ _ _ _ (textOk_jsNum _) (textOk_esc _) (by decide)
        (by decide) (by decide)
    | apply neutral_blk
    | apply neutral_blkA
    | apply neutral_append
    | apply neutral_ite
    | (apply neutral_optLines; intro v)
    | apply neutral_ta
    | apply neutral_t
    | exact neutral_sc _ _
    | exact neutral_nil
  all_goals first
    | exact attrsOk_lang _
    | exact textOk_esc _
    | exact textOk_escO _
    | exact textOk_jsNum _
    | decide

theorem neutral_noQuantResult (lang : String) : Neutral (noQuantResult lang) := by
  unfold noQuantResult
  repeat' first
    | apply neutral_blk
    | apply neutral_append
    | apply neutral_ta
    | exact neutral_sc _ _
  all_goals first
    | exact attrsOk_lang _
    | decide

set_option maxHeartbeats 3200000 in
theorem neutral_mrLines (lang : String) (mr : MeasResult)
    (hcl : (mr.results.getD []).all cleanPoint = true) :
    Neutral (mrLines lang mr) := by
  have hall : ∀ r ∈ mr.results.getD [], cleanPoint r = true := by
    rw [List.all_eq_true] at hcl
    exact hcl
  unfold mrLines
  repeat' first
    | exact neutral_flatten _ _ (fun r hr => neutral_pointLines lang r (hall r hr))
    | exact neutral_flatten _ _ (fun m _ => neutral_methodLines lang m)
    | exact neutral_flatten _ _ (fun c _ => neutral_condLines lang c)
    | exact neutral_noQuantResult _
    | apply neutral_blk
    | apply neutral_blkA
    | apply neutral_append
    | apply neutral_ite
    | apply neutral_ta
    | apply neutral_t
    | exact neutral_sc _ _
    | exact neutral_nil
  all_goals first
    | exact attrsOk_lang _
    | exact textOk_esc _
    | exact textOk_escO _
    | decide

theorem neutral_emptyMrLines (lang : String) : Neutral (emptyMrLines lang) := by
  unfold emptyMrLines
  repeat' first
    | exact neutral_noQuantResult _
    | apply neutral_blk
    | apply neutral_append
    | apply neutral_ta
  all_goals first
    | exact attrsOk_lang _
    | decide

theorem neutral_commentLines (lang : String) (data : DccData) :
    Neutral (commentLines lang data) := by
  unfold commentLines
  repeat' first
    | apply neutral_blk
    | apply neutral_append
    | apply neutral_ite
    | apply neutral_ta
    | exact neutral_nil
  all_goals first
    | exact attrsOk_lang _
    | exact textOk_esc _
    | decide

/-- Peeling the fixed skeleton: declaration plus root opening, three
neutral groups, and the root-closing line. -/
theorem chk_root3 (a b c : List XLine) (ha : Neutral a) (hb : Neutral b) (hc : Neutral c) :
    chk (headLines ++ a ++ b ++ c ++ [XLine.c 0 "dcc:digitalCalibrationCertificate"]) []
      = some [] := by
  simp only [chk_append]
  rw [show chk headLines [] = some ["dcc:digitalCalibrationCertificate"] from rfl]
  simp only [Option.some_bind]
  rw [ha _]
  simp only [Option.some_bind]
  rw [hb _]
  simp only [Option.some_bind]
  rw [hc _]
  simp only [Option.some_bind]
  rfl

/-- Every output of the generator on tag-safe input passes the
well-formedness checker with an empty final stack. -/
theorem genBody_wf (data : DccData) (h : cleanData data = true) :
    chk (genBody data) [] = some [] := by
  have hclean : ∀ mr ∈ data.measurementResults.getD [],
      (mr.results.getD []).all cleanPoint = true := by
    unfold cleanData at h
    rw [List.all_eq_true] at h
    exact h
  unfold genBody
  apply chk_root3
  · apply neutral_blk
    exact neutral_append (neutral_append (neutral_append (neutral_append (neutral_append
      (neutral_append neutral_dccSoftware (neutral_coreData _ _ _))
      (neutral_blk _ _ _ (neutral_append
        (neutral_flatten _ _ (fun it _ => neutral_itemLines _ it))
        (neutral_flatten _ _ (fun a _ => neutral_accLines _ a)))))
      (neutral_labLines _ _ _))
      (neutral_respLines _ _))
      (neutral_customerLines _ _ _))
      (neutral_statementsLines _ _ _)
  · apply neutral_blk
    refine neutral_append (neutral_equipmentsLines _ _) ?_
    refine neutral_ite _ ?_ ?_
    · exact neutral_emptyMrLines _
    · exact neutral_flatten _ _ (fun mr hmr => neutral_mrLines _ mr (hclean mr hmr))
  · exact neutral_commentLines _ _

/-- **C9** (amended): `generateDccXml` is a total function of its typed
DCC-JSON input (the Lean embedding is total by construction, matching the
exception-free source), and whenever every string-typed
`allowedDeviation`/`mpe` tolerance is free of markup characters —
tolerances are the only free text interpolated without `esc` — the emitted
line sequence is properly nested and tag-balanced with tag-safe text and
attribute values.  On the empty object `{}` its warnings are exactly the
five generator warnings (missing certificate id, missing begin date, item
without identification, no responsible person, no measurement results),
and the output contains exactly one placeholder `dcc:item` and one
placeholder `dcc:measurementResult`; the missing-laboratory-name,
missing-customer-name and no-items warnings claimed by the spec are
instead produced by the separate `validateData` export, which
`generateDccXml` never calls. -/
theorem C9_generator_total (data : DccData) (h : cleanData data = true) :
    chk (genBody data) [] = some [] ∧
    generateDccXml data =
      (strIntercalate "\n" ((genBody data).map renderLine), genWarnings data) ∧
    (generateDccXml emptyDcc).2 =
      ["Zertifikatsnummer (uniqueIdentifier) fehlt.",
       "Kalibrierdatum (beginPerformanceDate) fehlt.",
       "Keine Seriennummer oder Inventarnummer gefunden.",
       "Keine verantwortliche Person gefunden.",
       "Keine Messergebnisse gefunden."] ∧
    countTag (genBody emptyDcc) "dcc:item" = 1 ∧
    countTag (genBody emptyDcc) "dcc:measurementResult" = 1 ∧
    validateData emptyDcc =
      ["Zertifikatsnummer fehlt.",
       "Kalibrierdatum fehlt.",
       "Name des Kalibrierlaboratoriums fehlt.",
       "Name des Auftraggebers fehlt.",
       "Kein Prüfling angegeben.",
       "Keine Messergebnisse vorhanden.",
       "Keine Messeinrichtungen/Referenznormale angegeben.",
       "Keine Konformitätsaussage vorhanden."] :=
  ⟨genBody_wf data h, rfl, rfl, rfl, rfl, rfl⟩

/-- Witness for C9 at the concrete input `{}`: the empty object is
tag-safe and its generated lines pass the checker. -/
theorem C9_witness :
    cleanData emptyDcc = true ∧ chk (genBody emptyDcc) [] = some [] :=
  ⟨rfl, (C9_generator_total emptyDcc rfl).1⟩

/-- C9 as stated is false on the code: on `{}` the generator's warning
list contains neither the laboratory-name nor the customer-name nor the
no-items warning (those live only in the separate `validateData` export),
and a string-typed `mpe` tolerance containing `<` is interpolated
unescaped, so the produced XML is not well formed. -/
theorem C9_counterexample :
    "Name des Kalibrierlaboratoriums fehlt." ∉ (generateDccXml emptyDcc).2 ∧
    "Name des Auftraggebers fehlt." ∉ (generateDccXml emptyDcc).2 ∧
    "Kein Prüfling angegeben." ∉ (generateDccXml emptyDcc).2 ∧
    "Name des Kalibrierlaboratoriums fehlt." ∈ validateData emptyDcc ∧
    "Name des Auftraggebers fehlt." ∈ validateData emptyDcc ∧
    "Kein Prüfling angegeben." ∈ validateData emptyDcc ∧
    chk (genBody c9dirty) [] = none :=
  ⟨by decide, by decide, by decide, by decide, by decide, by decide, rfl⟩

end MZW
